import Mathlib

/-!
# Verification of the book-tracker import/dedup pipeline

Shallow embedding of the TypeScript import-normalization and deduplication
pipeline (services/dedupeUtil.ts and its extended variant, the Goodreads,
Libby, Kindle, Kobo and Readwise importers) together with proofs about the
claims of the specification.

Modelling conventions, used throughout:
* JavaScript strings are modelled by Lean `String` (a list of characters);
  the sources only manipulate ASCII text, for which JS UTF-16 `length`,
  `toLowerCase` and lexicographic comparison agree with the Lean ones.
* A JS `string | undefined` field that the code only ever tests for
  truthiness is modelled by `String` with `""` standing for both `""` and
  `undefined` (the two are indistinguishable under JS truthiness, which is
  the only way the modelled code observes them).  Likewise an optional
  number field tested for truthiness is a `Nat` (or `ℚ`) with `0` for
  `undefined`.
* JS `Map` objects (insertion ordered) are modelled by association lists
  `List (String × α)` where `set` replaces in place or appends.
* The similarity score, a JS floating point ratio of small natural numbers,
  is modelled by the exact rational `ℚ`.
-/

/-! ## JavaScript string primitives -/

/-- JS regex `\s` (ASCII range): space, tab, newline, carriage return,
vertical tab, form feed. -/
def jsIsSpace (c : Char) : Bool :=
  c = ' ' ∨ c = '\t' ∨ c = '\n' ∨ c = '\r' ∨ c = '\x0b' ∨ c = '\x0c'

/-- JS regex `\w` (ASCII): letters, digits, underscore. -/
def jsIsWord (c : Char) : Bool :=
  ('a' ≤ c ∧ c ≤ 'z') ∨ ('A' ≤ c ∧ c ≤ 'Z') ∨ ('0' ≤ c ∧ c ≤ '9') ∨ c = '_'

/-- ASCII digit. -/
def jsIsDigit (c : Char) : Bool := '0' ≤ c ∧ c ≤ '9'

/-- JS `String.prototype.trim` on a character list. -/
def listTrim (l : List Char) : List Char :=
  ((l.dropWhile jsIsSpace).reverse.dropWhile jsIsSpace).reverse

/-- JS `String.prototype.trim`. -/
def jsTrim (s : String) : String := ⟨listTrim s.data⟩

/-- JS `String.prototype.toLowerCase` (ASCII). -/
def jsLower (s : String) : String := ⟨s.data.map Char.toLower⟩

/-- `replace(/\s+/g, ' ')`: collapse every whitespace run to one space.
The boolean argument records whether the previous character was whitespace
(in which case further whitespace is dropped). -/
def collapseWsAux : List Char → Bool → List Char
  | [], _ => []
  | c :: rest, prevWs =>
    if jsIsSpace c then
      if prevWs then collapseWsAux rest true else ' ' :: collapseWsAux rest true
    else c :: collapseWsAux rest false

/-- `replace(/\s+/g, ' ')`. -/
def collapseWs (l : List Char) : List Char := collapseWsAux l false

/-- `replace(/[^\w\s]/g, '')`: keep only word characters and whitespace. -/
def keepWordSpace (l : List Char) : List Char :=
  l.filter (fun c => jsIsWord c || jsIsSpace c)

/-- JS `split(sep)` for a one-character separator: `"".split(sep)` is
`[""]`, a trailing separator yields a trailing empty part. -/
def jsSplitList (sep : Char) : List Char → List (List Char)
  | [] => [[]]
  | c :: rest =>
    if c = sep then [] :: jsSplitList sep rest
    else
      match jsSplitList sep rest with
      | [] => [[c]]
      | p :: ps => (c :: p) :: ps

/-- JS `split(sep)` (single-character separator) on strings. -/
def jsSplit (sep : Char) (s : String) : List String :=
  (jsSplitList sep s.data).map fun l => ⟨l⟩

/-- JS `String.prototype.includes`: `hay.includes(needle)`. -/
def jsIncludesL (hay needle : List Char) : Bool :=
  hay.tails.any fun t => needle.isPrefixOf t

/-- JS `hay.includes(needle)`. -/
def jsIncludes (hay needle : String) : Bool := jsIncludesL hay.data needle.data

/-- JS `String.prototype.startsWith`. -/
def jsStartsWith (s pre : String) : Bool := pre.data.isPrefixOf s.data

/-- JS `padStart(2, '0')`. -/
def padStart2 (s : String) : String :=
  if s.length ≥ 2 then s else ⟨List.replicate (2 - s.length) '0' ++ s.data⟩

/-- JS `||` on strings (first operand when truthy, i.e. non-empty). -/
def jsOrStr (a b : String) : String := if a = "" then b else a

/-! ## types/book.ts — the candidate record

`CreateBookInput` restricted to the fields the verified code reads or
writes.  Optional string fields use `""` for `undefined`, optional numeric
fields use `0`, per the conventions above; `progress` is only ever compared
with `=== 100`, and `0` is a legitimate progress, so it stays an `Option`. -/

structure CreateBookInput where
  title : String
  authors : List String
  isbn : String := ""
  cover_url : String := ""
  page_count : Nat := 0
  first_published : Nat := 0
  publisher : String := ""
  status : String := ""
  rating : Nat := 0
  notes : String := ""
  tags : List String := []
  highlights : List String := []
  progress : Option Nat := none
  date_added : String := ""
  date_started : String := ""
  date_finished : String := ""
  source : String := ""
  source_id : String := ""
  goodreads_avg_rating : ℚ := 0
  goodreads_rating_count : Nat := 0
  deriving DecidableEq, Repr

/-- `Map.prototype.get` on an insertion-ordered association list. -/
def jsMapGet {β : Type} (m : List (String × β)) (k : String) : Option β :=
  (m.find? fun kv => kv.1 = k).map (·.2)

/-- `Map.prototype.set`: replace in place if the key is present, else
append (JS maps keep the original insertion position on overwrite). -/
def jsMapSet {β : Type} (m : List (String × β)) (k : String) (v : β) :
    List (String × β) :=
  if m.any fun kv => kv.1 = k then
    m.map fun kv => if kv.1 = k then (k, v) else kv
  else m ++ [(k, v)]

/-! ## services/dedupeUtil.ts -/

namespace DedupeUtil

/-- `normalizeTitle` (dedupeUtil.ts): lowercase, remove punctuation,
collapse whitespace, trim. -/
def normalizeTitle (title : String) : String :=
  ⟨listTrim (collapseWs (keepWordSpace (jsLower title).data))⟩

/-- `getCoreTitle`: lowercase, take the part before the first colon or
dash (`split(/[:\-–—]/)[0]`), remove punctuation, collapse, trim. -/
def getCoreTitle (title : String) : String :=
  ⟨listTrim (collapseWs (keepWordSpace
    ((jsLower title).data.takeWhile fun c =>
      ¬ (c = ':' ∨ c = '-' ∨ c = '–' ∨ c = '—'))))⟩

/-- `normalizeAuthor` (dedupeUtil.ts): lowercase, remove punctuation,
collapse whitespace, trim. -/
def normalizeAuthor (author : String) : String :=
  ⟨listTrim (collapseWs (keepWordSpace (jsLower author).data))⟩

/-- `isSameBook` (dedupeUtil.ts): ISBN short-circuit, then the author gate
(some pair of normalized authors, both non-empty, one containing the
other), then the title ladder: exact normalized match, core-title match
(length ≥ 3), containment of full normalized titles (both length ≥ 5). -/
def isSameBook (a b : CreateBookInput) : Bool :=
  if a.isbn ≠ "" ∧ b.isbn ≠ "" ∧ a.isbn = b.isbn then true
  else
    let authorsA := a.authors.map normalizeAuthor
    let authorsB := b.authors.map normalizeAuthor
    let authorMatches := decide (∃ x ∈ authorsA, ∃ y ∈ authorsB,
      ¬ x = "" ∧ ¬ y = "" ∧ (jsIncludes x y = true ∨ jsIncludes y x = true))
    if ¬ authorMatches = true then false
    else
      let titleA := normalizeTitle a.title
      let titleB := normalizeTitle b.title
      if titleA = titleB then true
      else
        let coreA := getCoreTitle a.title
        let coreB := getCoreTitle b.title
        if coreA = coreB ∧ coreA.length ≥ 3 then true
        else if titleA.length ≥ 5 ∧ titleB.length ≥ 5 ∧
                (jsIncludes titleA titleB = true ∨ jsIncludes titleB titleA = true) then true
        else false

/-- `getDedupeKey`: core title and normalized first comma-part of the
author, joined by a bar. -/
def getDedupeKey (title author : String) : String :=
  getCoreTitle title ++ "|" ++ normalizeAuthor ⟨author.data.takeWhile (· ≠ ',')⟩

/-- `scoreBookInput`: the completeness score. -/
def scoreBookInput (b : CreateBookInput) : Nat :=
  (if b.rating ≠ 0 then 10 else 0) +
  (if b.goodreads_avg_rating ≠ 0 then 5 else 0) +
  (if b.notes ≠ "" then 3 else 0) +
  (if b.status = "finished" then 3 else 0) +
  (if b.status = "reading" then 2 else 0) +
  (if b.isbn ≠ "" then 2 else 0) +
  (if b.cover_url ≠ "" then 2 else 0) +
  (if b.page_count ≠ 0 then 1 else 0) +
  (if b.tags ≠ [] then 1 else 0) +
  (if b.title.length > 30 then 1 else 0) +
  (if b.date_finished ≠ "" then 2 else 0)

/-- `if (!base.x && other.x) base.x = other.x`: the donor value is taken
exactly when the base value is absent (`z`, the JS-falsy value of the
field's type) and the donor value is present. -/
def jsFill {α : Type} [DecidableEq α] (z base other : α) : α :=
  if base = z ∧ other ≠ z then other else base

/-- JS `Set` union used for tags: iterate the base tags then the donor
tags, appending each tag not present yet (insertion order preserved). -/
def jsSetUnion (xs ys : List String) : List String :=
  ys.foldl (fun acc t => if t ∈ acc then acc else acc ++ [t])
    (xs.foldl (fun acc t => if t ∈ acc then acc else acc ++ [t]) [])

/-- `statusPriority[s || 'tbd'] || 0`. -/
def statusPriority (s : String) : Nat :=
  if s = "finished" then 4
  else if s = "reading" then 3
  else if s = "want-to-read" then 2
  else if s = "parked" then 1
  else 0

/-- `const base = scoreA >= scoreB ? { ...a } : { ...b }`. -/
def mergeBase (a b : CreateBookInput) : CreateBookInput :=
  if scoreBookInput b ≤ scoreBookInput a then a else b

/-- `const other = scoreA >= scoreB ? b : a`. -/
def mergeOther (a b : CreateBookInput) : CreateBookInput :=
  if scoreBookInput b ≤ scoreBookInput a then b else a

/-- `mergeDuplicates`: the higher-scoring record (ties favour `a`) is the
base; the donor fills only fields the base lacks; tags are unioned; the
status ladder is resolved from the original two records. -/
def mergeDuplicates (a b : CreateBookInput) : CreateBookInput :=
  let base := mergeBase a b
  let other := mergeOther a b
  { base with
    rating := jsFill 0 base.rating other.rating
    notes := jsFill "" base.notes other.notes
    isbn := jsFill "" base.isbn other.isbn
    cover_url := jsFill "" base.cover_url other.cover_url
    page_count := jsFill 0 base.page_count other.page_count
    publisher := jsFill "" base.publisher other.publisher
    goodreads_avg_rating := jsFill 0 base.goodreads_avg_rating other.goodreads_avg_rating
    goodreads_rating_count := jsFill 0 base.goodreads_rating_count other.goodreads_rating_count
    date_started := jsFill "" base.date_started other.date_started
    date_finished := jsFill "" base.date_finished other.date_finished
    tags := if other.tags ≠ [] then jsSetUnion base.tags other.tags else base.tags
    status :=
      if statusPriority b.status > statusPriority a.status then b.status
      else if statusPriority a.status > statusPriority b.status then a.status
      else base.status }

/-- The fallback of the dedupe loop body: linear-scan all accumulator
entries (insertion order) with `isSameBook`, merging into the first match,
else insert the book under its own key (overwriting an unrelated entry
that happens to share the key, exactly as `Map.set` does). -/
def dedupeScan (seen : List (String × CreateBookInput)) (book : CreateBookInput)
    (key : String) : List (String × CreateBookInput) :=
  match seen.find? fun kv => isSameBook book kv.2 with
  | some kv => jsMapSet seen kv.1 (mergeDuplicates kv.2 book)
  | none => jsMapSet seen key book

/-- Body of the `for (const book of books)` loop of `dedupeBookInputs`:
probe by dedupe key (confirming with `isSameBook`), else fall back to the
linear scan. -/
def dedupeStep (seen : List (String × CreateBookInput)) (book : CreateBookInput) :
    List (String × CreateBookInput) :=
  let key := getDedupeKey book.title (book.authors.headD "")
  match jsMapGet seen key with
  | some existing =>
    if isSameBook book existing then jsMapSet seen key (mergeDuplicates existing book)
    else dedupeScan seen book key
  | none => dedupeScan seen book key

/-- `dedupeBookInputs`: fold the step over the input, return the
accumulator's values in insertion order. -/
def dedupeBookInputs (books : List CreateBookInput) : List CreateBookInput :=
  (books.foldl dedupeStep []).map (·.2)

/-- `isDuplicateOfExisting`: first existing record judged the same. -/
def isDuplicateOfExisting (input : CreateBookInput) (existingBooks : List CreateBookInput) :
    Option CreateBookInput :=
  existingBooks.find? fun existing => isSameBook input existing

end DedupeUtil

/-! ## The extended dedupe variant (src/unnamed/part_002)

The repository also carries an extended version of `dedupeUtil.ts` whose
normalizers strip edition/version parentheticals and author honorifics,
whose author gate falls back to last-name equality, and whose title ladder
ends in a fuzzy token-overlap similarity.  Its regex replaces are embedded
below with JS regex semantics: a replace scans left to right, `.` does not
match a newline, lazy groups take the shortest match, and `g` continues
after the consumed text. -/

/-- Newline characters excluded by the JS regex `.` (ASCII range). -/
def jsIsNewline (c : Char) : Bool := c = '\n' ∨ c = '\r'

/-- Index of the first occurrence of `word` in `l` (`none` if absent). -/
def firstMatchIdx (word : List Char) : List Char → Option Nat
  | [] => if word = [] then some 0 else none
  | c :: rest =>
    if word.isPrefixOf (c :: rest) then some 0
    else (firstMatchIdx word rest).map (· + 1)

/-- Worker of `globalReplace`: the fuel, initially the length of the text,
only bounds the number of scan steps (each step consumes at least one
character, so it is never exhausted); it keeps the recursion structural. -/
def globalReplaceGo (tryM : List Char → Option Nat) : Nat → List Char → List Char
  | _, [] => []
  | 0, l => l
  | fuel + 1, c :: rest =>
    match tryM (c :: rest) with
    | some (n + 1) => globalReplaceGo tryM fuel ((c :: rest).drop (n + 1))
    | _ => c :: globalReplaceGo tryM fuel rest

/-- A global regex replace-with-empty: `tryM l` returns how many leading
characters of `l` the pattern consumes when it matches at this position.
Matching positions are consumed, other characters are copied. -/
def globalReplace (tryM : List Char → Option Nat) (l : List Char) : List Char :=
  globalReplaceGo tryM l.length l

/-- Matcher for `\s*\(.*?WORD.*?\)` at the current position: a whitespace
run, an opening paren, then (without crossing a newline, since `.` does
not match one) the first occurrence of `WORD` followed by the first
closing paren after it. -/
def tryParenWord (word : List Char) (l : List Char) : Option Nat :=
  let r := l.dropWhile jsIsSpace
  match r with
  | '(' :: w =>
    let win := w.takeWhile fun c => ¬ jsIsNewline c
    match firstMatchIdx word win with
    | none => none
    | some j =>
      match (win.drop (j + word.length)).findIdx? (· = ')') with
      | none => none
      | some m => some ((l.length - r.length) + 1 + (j + word.length + m + 1))
  | _ => none

/-- Matcher for `\s*\(.*?\)\s*`: a whitespace run, a paren group up to the
first closing paren (no newline inside), then a trailing whitespace run. -/
def tryParenAny (l : List Char) : Option Nat :=
  let r := l.dropWhile jsIsSpace
  match r with
  | '(' :: w =>
    let win := w.takeWhile fun c => ¬ jsIsNewline c
    match win.findIdx? (· = ')') with
    | none => none
    | some m =>
      let after := w.drop (m + 1)
      some ((l.length - r.length) + 1 + (m + 1) + (after.takeWhile jsIsSpace).length)
  | _ => none

/-- The edition-suffix alternation of the extended `normalizeTitle`
(already lowercased input). -/
def editionWords : List (List Char) :=
  ["expanded".data, "enhanced".data, "revised".data, "updated".data,
   "complete".data, "unabridged".data]

/-- Matcher for `\s*,?\s*(expanded|enhanced|revised|updated|complete|unabridged)\s*edition`. -/
def tryEditionSuffix (l : List Char) : Option Nat :=
  let r1 := l.dropWhile jsIsSpace
  let r2 := if r1.head? = some ',' then r1.tail else r1
  let r3 := r2.dropWhile jsIsSpace
  match editionWords.find? (fun w => w.isPrefixOf r3) with
  | none => none
  | some w =>
    let r4 := (r3.drop w.length).dropWhile jsIsSpace
    if "edition".data.isPrefixOf r4 then
      some (l.length - r4.length + 7)
    else none

/-- Matcher for `\s*\(goodreads author\)` (input already lowercased). -/
def tryGoodreadsParen (l : List Char) : Option Nat :=
  let r := l.dropWhile jsIsSpace
  if "(goodreads author)".data.isPrefixOf r then
    some ((l.length - r.length) + "(goodreads author)".length)
  else none

namespace Dedupe2

/-- Extended `normalizeTitle`: lowercase; strip `(... edition ...)` and
`(... version ...)` parentheticals, bare `..., <word> edition` suffixes and
`(goodreads author)` markers; then remove punctuation, collapse whitespace
and trim, as in the base version. -/
def normalizeTitle (title : String) : String :=
  ⟨listTrim (collapseWs (keepWordSpace
    (globalReplace tryGoodreadsParen
      (globalReplace tryEditionSuffix
        (globalReplace (tryParenWord "version".data)
          (globalReplace (tryParenWord "edition".data) (jsLower title).data))))))⟩

/-- `getCoreTitle` of the extended variant is identical to the base one. -/
def getCoreTitle (title : String) : String := DedupeUtil.getCoreTitle title

/-- The one-shot suffix set of `,?\s*(jr\.?|sr\.?|ph\.?d\.?|md|ii|iii|iv)$`
(input already lowercased): every expansion of the alternation. -/
def nameSuffixes : List (List Char) :=
  ["jr".data, "jr.".data, "sr".data, "sr.".data,
   "phd".data, "phd.".data, "ph.d".data, "ph.d.".data,
   "md".data, "ii".data, "iii".data, "iv".data]

/-- Does `,?\s*(jr\.?|...)$` match exactly at this position (to the end)? -/
def nameSuffixHere (l : List Char) : Bool :=
  let r1 := if l.head? = some ',' then l.tail else l
  let r2 := r1.dropWhile jsIsSpace
  nameSuffixes.any fun w => r2 = w

/-- `replace(/,?\s*(jr\.?|sr\.?|ph\.?d\.?|md|ii|iii|iv)$/gi, '')`: cut at
the leftmost position from which the anchored suffix pattern matches. -/
def stripNameSuffix (l : List Char) : List Char :=
  match (List.range (l.length + 1)).find? (fun i => nameSuffixHere (l.drop i)) with
  | some i => l.take i
  | none => l

/-- Extended `normalizeAuthor`: lowercase; drop parentheticals; drop a
trailing honorific; then remove punctuation, collapse whitespace, trim. -/
def normalizeAuthor (author : String) : String :=
  ⟨listTrim (collapseWs (keepWordSpace
    (stripNameSuffix (globalReplace tryParenAny (jsLower author).data))))⟩

/-- `getAuthorLastName`: last space-delimited token of the normalized
author, or the whole normalized author when that token is empty. -/
def getAuthorLastName (author : String) : String :=
  let normalized := normalizeAuthor author
  jsOrStr ((jsSplit ' ' normalized).getLastD "") normalized

/-- JS `new Set(list)` as an insertion-ordered duplicate-free list. -/
def jsSetOf (l : List String) : List String :=
  l.foldl (fun acc t => if t ∈ acc then acc else acc ++ [t]) []

/-- `stringSimilarity`: 1 on equal strings, 0 when either is empty,
length-ratio when one contains the other, otherwise word-set overlap
divided by the larger word-set size.  The JS floating-point ratio is
modelled by the exact rational. -/
def stringSimilarity (a b : String) : ℚ :=
  if a = b then 1
  else if a = "" ∨ b = "" then 0
  else
    let longer := if a.length > b.length then a else b
    let shorter := if a.length > b.length then b else a
    if longer.length = 0 then 1
    else if jsIncludes longer shorter then (shorter.length : ℚ) / (longer.length : ℚ)
    else
      let wordsA := jsSetOf (jsSplit ' ' a)
      let wordsB := jsSetOf (jsSplit ' ' b)
      let matchCount := (wordsA.filter (fun w => w ∈ wordsB)).length
      let totalWords := max wordsA.length wordsB.length
      if totalWords > 0 then (matchCount : ℚ) / (totalWords : ℚ) else 0

/-- `authorsMatch`: some pair of normalized authors equal or one containing
the other, or some pair of last names of length ≥ 3 equal. -/
def authorsMatch (authorsA authorsB : List String) : Bool :=
  let normalizedA := (authorsA.map normalizeAuthor).filter (fun s => s ≠ "")
  let normalizedB := (authorsB.map normalizeAuthor).filter (fun s => s ≠ "")
  let lastNamesA := (authorsA.map getAuthorLastName).filter (fun s => s ≠ "")
  let lastNamesB := (authorsB.map getAuthorLastName).filter (fun s => s ≠ "")
  decide ((∃ x ∈ normalizedA, ∃ y ∈ normalizedB,
      ¬ x = "" ∧ ¬ y = "" ∧ (x = y ∨ jsIncludes x y = true ∨ jsIncludes y x = true)) ∨
    (∃ x ∈ lastNamesA, ∃ y ∈ lastNamesB, x.length ≥ 3 ∧ x = y))

/-- Extended `isSameBook`: ISBN short-circuit, `authorsMatch` gate, then
the title ladder ending in the fuzzy fallback
(`stringSimilarity(coreA, coreB) >= 0.7 && coreA.length >= 5`). -/
def isSameBook (a b : CreateBookInput) : Bool :=
  if a.isbn ≠ "" ∧ b.isbn ≠ "" ∧ a.isbn = b.isbn then true
  else if ¬ authorsMatch a.authors b.authors = true then false
  else
    let titleA := normalizeTitle a.title
    let titleB := normalizeTitle b.title
    if titleA = titleB then true
    else
      let coreA := getCoreTitle a.title
      let coreB := getCoreTitle b.title
      if coreA = coreB ∧ coreA.length ≥ 3 then true
      else if titleA.length ≥ 5 ∧ titleB.length ≥ 5 ∧
              (jsIncludes titleA titleB = true ∨ jsIncludes titleB titleA = true) then true
      else if (7 : ℚ) / 10 ≤ stringSimilarity coreA coreB ∧ coreA.length ≥ 5 then true
      else false

end Dedupe2

/-! ## services/readwiseImport.ts — the tolerant CSV reader

`parseCSV` handles quoted fields containing commas and newlines; fields
are trimmed, rows whose fields are all empty are dropped. -/

namespace ReadwiseImport

/-- `if (currentRow.some(f => f)) rows.push(currentRow)`. -/
def pushRow (curR : List String) (rows : List (List String)) : List (List String) :=
  if curR.any (fun f => f ≠ "") then rows ++ [curR] else rows

/-- The after-loop flush of `parseCSV`:
`if (currentField || currentRow.length > 0) { … }`. -/
def csvFlushEnd (curF : List Char) (curR : List String) (rows : List (List String)) :
    List (List String) :=
  if curF ≠ [] ∨ curR ≠ [] then pushRow (curR ++ [⟨listTrim curF⟩]) rows else rows

/-- The character loop of `parseCSV`: state is the remaining text, the
in-quotes flag, the current field, the current row and the finished rows. -/
def parseCSVAux : List Char → Bool → List Char → List String → List (List String) →
    List (List String)
  | [], _, curF, curR, rows => csvFlushEnd curF curR rows
  | '"' :: '"' :: rest2, true, curF, curR, rows =>
    parseCSVAux rest2 true (curF ++ ['"']) curR rows
  | '"' :: rest, inQ, curF, curR, rows => parseCSVAux rest (!inQ) curF curR rows
  | ',' :: rest, false, curF, curR, rows =>
    parseCSVAux rest false [] (curR ++ [⟨listTrim curF⟩]) rows
  | '\n' :: rest, false, curF, curR, rows =>
    parseCSVAux rest false [] [] (pushRow (curR ++ [⟨listTrim curF⟩]) rows)
  | '\r' :: '\n' :: rest2, false, curF, curR, rows =>
    parseCSVAux rest2 false [] [] (pushRow (curR ++ [⟨listTrim curF⟩]) rows)
  | '\r' :: rest, false, curF, curR, rows =>
    parseCSVAux rest false [] [] (pushRow (curR ++ [⟨listTrim curF⟩]) rows)
  | c :: rest, inQ, curF, curR, rows => parseCSVAux rest inQ (curF ++ [c]) curR rows

/-- `parseCSV` (readwiseImport.ts). -/
def parseCSV (csvText : String) : List (List String) :=
  parseCSVAux csvText.data false [] [] []

/-- `replace(/ and /gi, ', ')` of `parseAuthors` (global, case-insensitive
on the letters, the surrounding spaces literal). -/
def replaceAndWithComma : List Char → List Char
  | ' ' :: a :: n :: d :: ' ' :: rest =>
    if a.toLower = 'a' ∧ n.toLower = 'n' ∧ d.toLower = 'd' then
      ',' :: ' ' :: replaceAndWithComma rest
    else ' ' :: replaceAndWithComma (a :: n :: d :: ' ' :: rest)
  | c :: rest => c :: replaceAndWithComma rest
  | [] => []

/-- `parseAuthors` (readwiseImport.ts): turn "A, B and C" into a list,
falling back to the "Unknown" sentinel. -/
def parseAuthors (authorStr : String) : List String :=
  if authorStr = "" then ["Unknown"]
  else
    let authors := ((jsSplit ',' ⟨replaceAndWithComma authorStr.data⟩).map jsTrim).filter
      (fun s => s ≠ "")
    if authors.length > 0 then authors else ["Unknown"]

end ReadwiseImport

/-- Modelled from the spec: RFC-style quoting of a single field value —
wrap the value in double quotes, doubling every embedded double quote.
(The repository only parses CSV; the quoting side of the round-trip claim
is not in the source.) -/
def escapeQuotes : List Char → List Char
  | [] => []
  | '"' :: rest => '"' :: '"' :: escapeQuotes rest
  | c :: rest => c :: escapeQuotes rest

/-- Modelled from the spec: the RFC-style quoted form of a field value. -/
def rfcQuote (v : String) : String :=
  ⟨'"' :: (escapeQuotes v.data ++ ['"'])⟩

/-! ## services/libbyImport.ts

The host date parser `parseLibbyTimestamp` calls the JS `Date` constructor
on strings like "December 28, 2025 14:49", which is
implementation-defined and timezone-dependent; the consolidation pipeline
is therefore parameterized by a date parser `pt : String → Option String`
returning a `YYYY-MM-DD` day or nothing. -/

namespace LibbyImport

/-- One row of the Libby timeline CSV. -/
structure LibbyLoan where
  cover : String := ""
  title : String := ""
  author : String := ""
  publisher : String := ""
  isbn : String := ""
  timestamp : String := ""
  activity : String := ""
  details : String := ""
  library : String := ""
  deriving DecidableEq, Repr

/-- The character loop of `parseCSVLine` (libbyImport.ts; the Goodreads
importer carries a character-identical copy): split one line on unquoted
commas, trimming each field, collapsing doubled quotes. -/
def parseCSVLineAux : List Char → Bool → List Char → List String → List String
  | [], _, cur, result => result ++ [⟨listTrim cur⟩]
  | '"' :: '"' :: rest2, true, cur, result => parseCSVLineAux rest2 true (cur ++ ['"']) result
  | '"' :: rest, inQ, cur, result => parseCSVLineAux rest (!inQ) cur result
  | ',' :: rest, false, cur, result => parseCSVLineAux rest false [] (result ++ [⟨listTrim cur⟩])
  | c :: rest, inQ, cur, result => parseCSVLineAux rest inQ (cur ++ [c]) result

/-- `parseCSVLine` (libbyImport.ts). -/
def parseCSVLine (line : String) : List String :=
  parseCSVLineAux line.data false [] []

/-- `parseLibbyCSV`: split the text on newlines, skip the header line,
skip blank lines and rows of fewer than nine fields. -/
def parseLibbyCSV (csvText : String) : List LibbyLoan :=
  let lines := jsSplit '\n' csvText
  if lines.length < 2 then []
  else
    (lines.drop 1).filterMap fun line =>
      let l := jsTrim line
      if l = "" then none
      else
        let values := parseCSVLine l
        if values.length < 9 then none
        else some {
          cover := values.getD 0 "", title := values.getD 1 "",
          author := values.getD 2 "", publisher := values.getD 3 "",
          isbn := values.getD 4 "", timestamp := values.getD 5 "",
          activity := values.getD 6 "", details := values.getD 7 "",
          library := values.getD 8 "" }

/-- Can `\s*[:;]\s*.+$` match with the `[:;]` at the current position,
i.e. does the remainder after the separator split into a `\s*` part and a
non-empty tail free of newlines (which `.` cannot match)? -/
def subtitleTailOk (rem : List Char) : Bool :=
  let rest := rem.dropWhile jsIsSpace
  if rest ≠ [] then rest.all fun c => !jsIsNewline c
  else decide (rem ≠ []) && !jsIsNewline (rem.getLastD ' ')

/-- `replace(/\s*[:;]\s*.+$/, '')` of the Libby `normalizeTitle`: cut
before the leftmost matching separator and the whitespace run before it. -/
def libbyStripSubtitle (l : List Char) : List Char :=
  match (List.range l.length).find? (fun p =>
      decide (l.getD p ' ' = ':' ∨ l.getD p ' ' = ';') && subtitleTailOk (l.drop (p + 1))) with
  | none => l
  | some p => l.take (p - ((l.take p).reverse.takeWhile jsIsSpace).length)

/-- `replace(/\s*\(([^)]+)\)\s*$/, '')`-style trailing-group removal, for
parentheses and brackets: the group must be non-empty, contain no closing
character, and be followed only by whitespace; the whitespace run before
the opening character is removed with it. -/
def stripTrailingGroup (openC closeC : Char) (l : List Char) : List Char :=
  match (List.range l.length).find? (fun p =>
      decide (l.getD p ' ' = openC) &&
      (match (l.drop (p + 1)).findIdx? (· = closeC) with
       | some m => decide (m ≥ 1) && ((l.drop (p + 1)).drop (m + 1)).all jsIsSpace
       | none => false)) with
  | none => l
  | some p => l.take (p - ((l.take p).reverse.takeWhile jsIsSpace).length)

/-- `replace(/[^a-z0-9\s]/g, '')`. -/
def keepLowerDigitSpace (l : List Char) : List Char :=
  l.filter fun c => ('a' ≤ c ∧ c ≤ 'z') ∨ ('0' ≤ c ∧ c ≤ '9') ∨ jsIsSpace c

/-- Libby `normalizeTitle`: lowercase; drop a `: …`/`; …` subtitle, a
trailing parenthetical and a trailing bracketed tag; keep only lowercase
letters, digits and whitespace; collapse whitespace; trim. -/
def normalizeTitle (title : String) : String :=
  ⟨listTrim (collapseWs (keepLowerDigitSpace
    (stripTrailingGroup '[' ']'
      (stripTrailingGroup '(' ')'
        (libbyStripSubtitle (jsLower title).data)))))⟩

/-- `author.split(/[,&]|and\s/i)[0]`: the prefix before the first comma,
ampersand, or case-insensitive "and" followed by whitespace. -/
def libbyFirstAuthor : List Char → List Char
  | [] => []
  | c :: rest =>
    if c = ',' ∨ c = '&' then []
    else
      match rest with
      | c2 :: c3 :: c4 :: _ =>
        if c.toLower = 'a' ∧ c2.toLower = 'n' ∧ c3.toLower = 'd' ∧ jsIsSpace c4 then []
        else c :: libbyFirstAuthor rest
      | _ => c :: libbyFirstAuthor rest

/-- Expansions of the Libby honorific alternation
`(jr\.?|sr\.?|iii?|iv|ph\.?d\.?|m\.?d\.?|dr\.?)`. -/
def libbyNameSuffixes : List (List Char) :=
  ["jr".data, "jr.".data, "sr".data, "sr.".data, "ii".data, "iii".data, "iv".data,
   "phd".data, "phd.".data, "ph.d".data, "ph.d.".data,
   "md".data, "md.".data, "m.d".data, "m.d.".data,
   "dr".data, "dr.".data]

/-- Does `\s*(jr\.?|…)\s*$` match at this position (to the end)? -/
def libbySuffixHere (l : List Char) : Bool :=
  let r1 := l.dropWhile jsIsSpace
  libbyNameSuffixes.any fun w => w.isPrefixOf r1 && (r1.drop w.length).all jsIsSpace

/-- `replace(/\s*(jr\.?|sr\.?|iii?|iv|ph\.?d\.?|m\.?d\.?|dr\.?)\s*$/i, '')`. -/
def libbyStripNameSuffix (l : List Char) : List Char :=
  match (List.range (l.length + 1)).find? (fun i => libbySuffixHere (l.drop i)) with
  | some i => l.take i
  | none => l

/-- Libby `normalizeAuthor`: first author only, lowercase, drop a trailing
honorific, keep only lowercase letters and whitespace, collapse, trim. -/
def normalizeAuthor (author : String) : String :=
  ⟨listTrim (collapseWs
    ((libbyStripNameSuffix (jsLower ⟨libbyFirstAuthor author.data⟩).data).filter
      fun c => ('a' ≤ c ∧ c ≤ 'z') ∨ jsIsSpace c))⟩

/-- The consolidation state for one book. -/
structure ConsolidatedBook where
  loan : LibbyLoan
  borrowDates : List String
  returnDates : List String
  deriving DecidableEq, Repr

/-- The consolidation grouping key: normalized title and author. -/
def libbyKey (loan : LibbyLoan) : String :=
  normalizeTitle loan.title ++ "|" ++ normalizeAuthor loan.author

/-- Loop body of `consolidateLoans`: insert an empty group when the key is
new, record the parsed timestamp under the matching activity, and keep the
longest cover URL. -/
def consStep (pt : String → Option String) (m : List (String × ConsolidatedBook))
    (loan : LibbyLoan) : List (String × ConsolidatedBook) :=
  let key := libbyKey loan
  let c0 := match jsMapGet m key with
    | some c => c
    | none => { loan := loan, borrowDates := [], returnDates := [] }
  let c1 := match pt loan.timestamp with
    | some d =>
      if loan.activity = "Borrowed" then { c0 with borrowDates := c0.borrowDates ++ [d] }
      else if loan.activity = "Returned" then { c0 with returnDates := c0.returnDates ++ [d] }
      else c0
    | none => c0
  let c2 := if loan.cover ≠ "" ∧ (c1.loan.cover = "" ∨ c1.loan.cover.length < loan.cover.length)
    then { c1 with loan := { c1.loan with cover := loan.cover } } else c1
  jsMapSet m key c2

/-- `consolidateLoans`, parameterized by the host date parser. -/
def consolidateLoans (pt : String → Option String) (loans : List LibbyLoan) :
    List ConsolidatedBook :=
  (loans.foldl (consStep pt) []).map (·.2)

/-- JS `Array.prototype.sort()` on strings: an in-place stable sort in
lexicographic (UTF-16 code unit) order, modelled by insertion sort under
the character-wise order on Lean strings. -/
def sortStr (l : List String) : List String :=
  List.insertionSort (· ≤ ·) l

/-- `libbyToBookInput`: earliest borrow date starts the book, latest
return date finishes it, status is finished exactly when a return date is
present, and repeated borrows are recorded in the notes. -/
def libbyToBookInput (consolidated : ConsolidatedBook) : CreateBookInput :=
  let borrowSorted := sortStr consolidated.borrowDates
  let returnSorted := sortStr consolidated.returnDates
  let dateStarted := if borrowSorted.length > 0 then borrowSorted.headD "" else ""
  let dateFinished := if returnSorted.length > 0 then returnSorted.getLastD "" else ""
  let status := if dateFinished ≠ "" then "finished" else "tbd"
  { title := consolidated.loan.title
    authors := [consolidated.loan.author]
    cover_url := consolidated.loan.cover
    isbn := consolidated.loan.isbn
    status := status
    source := "libby"
    date_added := dateStarted
    date_started := dateStarted
    date_finished := dateFinished
    notes := if consolidated.borrowDates.length > 1 then
        "Borrowed " ++ toString consolidated.borrowDates.length ++ " times from "
          ++ consolidated.loan.library
      else "" }

/-- `importLibbyCSV`: parse, consolidate, convert, deduplicate. -/
def importLibbyCSV (pt : String → Option String) (csvText : String) :
    List CreateBookInput :=
  DedupeUtil.dedupeBookInputs
    ((consolidateLoans pt (parseLibbyCSV csvText)).map libbyToBookInput)

end LibbyImport

/-! ## The Goodreads importer (src/unnamed/part_001) -/

namespace GoodreadsImport

/-- One parsed row of the Goodreads library export. -/
structure GoodreadsBook where
  bookId : String := ""
  title : String := ""
  author : String := ""
  authorLf : String := ""
  additionalAuthors : String := ""
  isbn : String := ""
  isbn13 : String := ""
  myRating : Nat := 0
  averageRating : ℚ := 0
  publisher : String := ""
  binding : String := ""
  numberOfPages : Nat := 0
  yearPublished : Nat := 0
  originalPublicationYear : Nat := 0
  dateRead : String := ""
  dateAdded : String := ""
  bookshelves : String := ""
  bookshelvesWithPositions : String := ""
  exclusiveShelf : String := ""
  myReview : String := ""
  spoiler : String := ""
  privateNotes : String := ""
  readCount : Nat := 0
  ownedCopies : Nat := 0
  deriving DecidableEq, Repr

/-- `mapShelfToStatus`: only the `read` shelf maps to `finished`;
everything else (including `currently-reading` and `to-read`) is `tbd`. -/
def mapShelfToStatus (shelf : String) : String :=
  if jsLower shelf = "read" then "finished" else "tbd"

/-- `parseGoodreadsDate`: empty or whitespace-only yields nothing; any
string with exactly three `/`-separated parts is rebuilt as
`part0-part1-part2` with the last two parts zero-padded to two characters;
anything else yields nothing. -/
def parseGoodreadsDate (dateStr : String) : Option String :=
  if jsTrim dateStr = "" then none
  else
    match jsSplit '/' dateStr with
    | [p0, p1, p2] => some (p0 ++ "-" ++ padStart2 p1 ++ "-" ++ padStart2 p2)
    | _ => none

/-- `goodreadsToBookInput`. -/
def goodreadsToBookInput (gr : GoodreadsBook) : CreateBookInput :=
  let notes :=
    if gr.myReview ≠ "" then
      if gr.privateNotes ≠ "" then
        gr.myReview ++ "\n\n---\nPrivate Notes:\n" ++ gr.privateNotes
      else gr.myReview
    else if gr.privateNotes ≠ "" then gr.privateNotes else ""
  let authors := [gr.author] ++
    (if gr.additionalAuthors ≠ "" then
      ((jsSplit ',' gr.additionalAuthors).map jsTrim).filter (fun s => s ≠ "")
    else [])
  let standardShelves := ["to-read", "currently-reading", "read"]
  let tags := ((jsSplit ',' gr.bookshelves).map jsTrim).filter
    (fun s => s ≠ "" ∧ jsLower s ∉ standardShelves)
  { title := gr.title
    authors := authors
    isbn := jsOrStr gr.isbn13 gr.isbn
    page_count := gr.numberOfPages
    first_published :=
      if gr.originalPublicationYear ≠ 0 then gr.originalPublicationYear else gr.yearPublished
    publisher := gr.publisher
    status := mapShelfToStatus gr.exclusiveShelf
    rating := if gr.myRating > 0 then gr.myRating else 0
    notes := notes
    tags := if tags.length > 0 then tags else []
    source := "goodreads"
    source_id := gr.bookId
    date_added := (parseGoodreadsDate gr.dateAdded).getD ""
    date_finished := (parseGoodreadsDate gr.dateRead).getD ""
    goodreads_avg_rating := if gr.averageRating > 0 then gr.averageRating else 0 }

end GoodreadsImport

/-! ## services/kindleImport.ts -/

namespace KindleImport

/-- `^\d+ books?$`-style matcher: one or more digits followed exactly by
one of the given suffixes (input already lowercased). -/
def digitsThen (suffixes : List (List Char)) (l : List Char) : Bool :=
  let ds := l.takeWhile jsIsDigit
  decide (ds ≠ []) && suffixes.any fun w => decide (l.drop ds.length = w)

/-- The Kindle UI-noise patterns of `skipPatterns`, all case-insensitive. -/
def isNoiseLine (line : String) : Bool :=
  let low := (jsLower line).data
  "find books like".data.isPrefixOf low ||
  digitsThen [" book".data, " books".data] low ||
  digitsThen [" title".data, " titles".data] low ||
  "kindle".data.isPrefixOf low ||
  "your library".data.isPrefixOf low ||
  "sort by".data.isPrefixOf low ||
  "filter".data.isPrefixOf low ||
  ("page ".data.isPrefixOf low &&
    (match (low.drop 5).head? with
     | some d => jsIsDigit d
     | none => false)) ||
  "showing".data.isPrefixOf low

/-- ASCII uppercase letter. -/
def isUpper (c : Char) : Bool := 'A' ≤ c ∧ c ≤ 'Z'

/-- ASCII lowercase letter. -/
def isLower (c : Char) : Bool := 'a' ≤ c ∧ c ≤ 'z'

/-- `[A-Z][a-z]+`: consume one capitalized word, returning the rest. -/
def nameToken (l : List Char) : Option (List Char) :=
  match l with
  | c :: rest =>
    if isUpper c then
      let ls := rest.takeWhile isLower
      if ls ≠ [] then some (rest.drop ls.length) else none
    else none
  | [] => none

/-- `/^[A-Z][a-z]+ [A-Z][a-z]+$/`: the "John Smith" name shape. -/
def nameShapeTwo (l : List Char) : Bool :=
  match nameToken l with
  | some (' ' :: r2) =>
    match nameToken r2 with
    | some [] => true
    | _ => false
  | _ => false

/-- `/^[A-Z][a-z]+ [A-Z]\.? [A-Z][a-z]+$/`: the "John A. Smith" shape. -/
def nameShapeInitial (l : List Char) : Bool :=
  match nameToken l with
  | some (' ' :: r2) =>
    match r2 with
    | c :: rest =>
      if isUpper c then
        let rest2 := match rest with
          | '.' :: r => r
          | _ => rest
        match rest2 with
        | ' ' :: r3 =>
          (match nameToken r3 with
           | some [] => true
           | _ => false)
        | _ => false
      else false
    | [] => false
  | _ => false

/-- Matcher for `\s*\([^)]*book\s*\d+[^)]*\)` (case-insensitive): a paren
group, closed by its first closing paren, whose interior contains "book"
followed by optional whitespace and at least one digit. -/
def bookNumIn : List Char → Bool
  | [] => false
  | c :: rest =>
    let digitOk := match ((rest.drop 3).dropWhile jsIsSpace).head? with
      | some d => jsIsDigit d
      | none => false
    if decide (c.toLower = 'b') && "ook".data.isPrefixOf (rest.map Char.toLower) && digitOk then
      true
    else bookNumIn rest

/-- Position matcher for the series-annotation replace of `cleanTitle`. -/
def tryBookNParen (l : List Char) : Option Nat :=
  let r := l.dropWhile jsIsSpace
  match r with
  | '(' :: w =>
    match w.findIdx? (· = ')') with
    | none => none
    | some m => if bookNumIn (w.take m) then some ((l.length - r.length) + 1 + m + 1) else none
  | _ => none

/-- Position matcher for `\s*\[[^\]]+\]` of `cleanTitle`. -/
def tryBracketTag (l : List Char) : Option Nat :=
  let r := l.dropWhile jsIsSpace
  match r with
  | '[' :: w =>
    match w.findIdx? (· = ']') with
    | none => none
    | some m => if m ≥ 1 then some ((l.length - r.length) + 1 + m + 1) else none
  | _ => none

/-- `cleanTitle`: strip "(Book N)"-style annotations and bracketed tags. -/
def cleanTitle (title : String) : String :=
  jsTrim ⟨globalReplace tryBracketTag (globalReplace tryBookNParen title.data)⟩

/-- `cleanAuthor`. -/
def cleanAuthor (author : String) : String := jsTrim author

/-- The pairing loop of `parseKindleText` over the non-empty trimmed
lines: skip noise lines; pair a line with the next when the next is not
noise and looks like an author (no colon, or shorter than the title, or a
name shape); otherwise drop the single line. -/
def parseKindleLines : List String → List (String × String)
  | [] => []
  | [_] => []
  | line :: potentialAuthor :: rest2 =>
    if isNoiseLine line then parseKindleLines (potentialAuthor :: rest2)
    else if isNoiseLine potentialAuthor then parseKindleLines (potentialAuthor :: rest2)
    else
      let looksLikeAuthor := !jsIncludes potentialAuthor ":" ||
        decide (potentialAuthor.length < line.length) ||
        nameShapeInitial potentialAuthor.data || nameShapeTwo potentialAuthor.data
      if looksLikeAuthor then
        (cleanTitle line, cleanAuthor potentialAuthor) :: parseKindleLines rest2
      else parseKindleLines (potentialAuthor :: rest2)

/-- `parseKindleText`: split into trimmed non-empty lines and pair them. -/
def parseKindleText (text : String) : List (String × String) :=
  parseKindleLines (((jsSplit '\n' text).map jsTrim).filter fun l => l.length > 0)

/-- `kindleToBookInput`. -/
def kindleToBookInput (book : String × String) : CreateBookInput :=
  { title := book.1, authors := [book.2], status := "tbd", source := "kindle" }

/-- `importKindleText`: parse and convert — no deduplication pass. -/
def importKindleText (text : String) : List CreateBookInput :=
  (parseKindleText text).map kindleToBookInput

end KindleImport

/-! ## services/koboImport.ts (the converter; the line-classification
scanner is not needed by the claims) -/

namespace KoboImport

/-- One heuristically parsed Kobo library entry. -/
structure KoboBook where
  title : String := ""
  author : String := ""
  series : String := ""
  genre : String := ""
  status : String := ""
  dateAdded : String := ""
  progress : Option Nat := none
  deriving DecidableEq, Repr

/-- `parseKoboDate`: `M/D/YYYY` (one or two digit month and day, four
digit year) to ISO `YYYY-MM-DD`, zero-padding month and day. -/
def parseKoboDate (dateStr : String) : Option String :=
  match jsSplit '/' dateStr with
  | [m, d, y] =>
    if 1 ≤ m.length ∧ m.length ≤ 2 ∧ m.data.all jsIsDigit ∧
        1 ≤ d.length ∧ d.length ≤ 2 ∧ d.data.all jsIsDigit ∧
        y.length = 4 ∧ y.data.all jsIsDigit then
      some (y ++ "-" ++ padStart2 m ++ "-" ++ padStart2 d)
    else none
  | _ => none

/-- Does `\s*\+\d+$` match at this position (to the end)? -/
def plusNHere (l : List Char) : Bool :=
  match l.dropWhile jsIsSpace with
  | '+' :: ds => decide (ds ≠ []) && ds.all jsIsDigit
  | _ => false

/-- `replace(/\s*\+\d+$/, '')`: drop a trailing "+N" co-author count. -/
def stripPlusN (s : String) : String :=
  match (List.range (s.data.length + 1)).find? (fun i => plusNHere (s.data.drop i)) with
  | some i => ⟨s.data.take i⟩
  | none => s

/-- `koboToBookInput`: drop not-owned entries (Buy Now / Preview), mark
finished only at 100% progress, split authors on commas after removing the
"+N" suffix, falling back to the "Unknown" sentinel. -/
def koboToBookInput (kobo : KoboBook) : Option CreateBookInput :=
  let statusLower := jsLower kobo.status
  if jsStartsWith statusLower "buy now" ∨ statusLower = "preview" then none
  else
    let status :=
      if kobo.progress = some 100 ∨ jsIncludes statusLower "100%" = true then "finished"
      else "tbd"
    let authors := ((jsSplit ',' (stripPlusN kobo.author)).map jsTrim).filter fun s => s ≠ ""
    let dateAdded := (parseKoboDate kobo.dateAdded).getD ""
    some { title := kobo.title
           authors := if authors.length > 0 then authors else ["Unknown"]
           status := status
           progress := kobo.progress
           source := "kobo"
           date_added := dateAdded
           date_finished := if status = "finished" then dateAdded else "" }

end KoboImport

/-! ## Theorems -/

theorem fuzzyThreshold_le (r s : ℕ) (hs : 0 < s) (h : 7 * s ≤ r * 10) :
    (7 : ℚ) / 10 ≤ (r : ℚ) / (s : ℚ) := by
  rw [div_le_div_iff₀ (by norm_num) (by exact_mod_cast hs)]
  exact_mod_cast h

theorem fuzzyThreshold_not_le (r s : ℕ) (hs : 0 < s) (h : r * 10 < 7 * s) :
    ¬ (7 : ℚ) / 10 ≤ (r : ℚ) / (s : ℚ) := by
  rw [div_le_div_iff₀ (by norm_num) (by exact_mod_cast hs)]
  intro hc
  have : (7 : ℚ) * s ≤ (r : ℚ) * 10 := hc
  have hn : 7 * s ≤ r * 10 := by exact_mod_cast this
  omega

theorem jsFill_pop {α : Type} [DecidableEq α] (z x y : α) (h : x ≠ z ∨ y ≠ z) :
    DedupeUtil.jsFill z x y ≠ z := by
  unfold DedupeUtil.jsFill
  split_ifs with h1
  · exact h1.2
  · rcases h with h | h
    · exact h
    · by_cases hx : x = z
      · exact absurd ⟨hx, h⟩ h1
      · exact hx

theorem jsFill_base {α : Type} [DecidableEq α] (z x y : α) (h : x ≠ z) :
    DedupeUtil.jsFill z x y = x := by
  unfold DedupeUtil.jsFill
  rw [if_neg]
  rintro ⟨h1, -⟩
  exact h h1

theorem mergeBase_or (a b : CreateBookInput) :
    (DedupeUtil.mergeBase a b = a ∧ DedupeUtil.mergeOther a b = b) ∨
    (DedupeUtil.mergeBase a b = b ∧ DedupeUtil.mergeOther a b = a) := by
  unfold DedupeUtil.mergeBase DedupeUtil.mergeOther
  split_ifs
  · exact Or.inl ⟨rfl, rfl⟩
  · exact Or.inr ⟨rfl, rfl⟩

/-- **C2.** For each of the ten merge-listed fields (rating, notes, isbn,
cover_url, page_count, publisher, goodreads_avg_rating,
goodreads_rating_count, date_started, date_finished), `mergeDuplicates a b`
has the field populated whenever at least one of `a`, `b` has it populated,
and whenever the higher-completeness-score base record has the field
populated the merged value is exactly the base's value. -/
theorem claim_C2_merge_never_regresses (a b : CreateBookInput) :
    (((a.rating ≠ 0 ∨ b.rating ≠ 0) → (DedupeUtil.mergeDuplicates a b).rating ≠ 0) ∧
      ((DedupeUtil.mergeBase a b).rating ≠ 0 →
        (DedupeUtil.mergeDuplicates a b).rating = (DedupeUtil.mergeBase a b).rating)) ∧
    (((a.notes ≠ "" ∨ b.notes ≠ "") → (DedupeUtil.mergeDuplicates a b).notes ≠ "") ∧
      ((DedupeUtil.mergeBase a b).notes ≠ "" →
        (DedupeUtil.mergeDuplicates a b).notes = (DedupeUtil.mergeBase a b).notes)) ∧
    (((a.isbn ≠ "" ∨ b.isbn ≠ "") → (DedupeUtil.mergeDuplicates a b).isbn ≠ "") ∧
      ((DedupeUtil.mergeBase a b).isbn ≠ "" →
        (DedupeUtil.mergeDuplicates a b).isbn = (DedupeUtil.mergeBase a b).isbn)) ∧
    (((a.cover_url ≠ "" ∨ b.cover_url ≠ "") → (DedupeUtil.mergeDuplicates a b).cover_url ≠ "") ∧
      ((DedupeUtil.mergeBase a b).cover_url ≠ "" →
        (DedupeUtil.mergeDuplicates a b).cover_url = (DedupeUtil.mergeBase a b).cover_url)) ∧
    (((a.page_count ≠ 0 ∨ b.page_count ≠ 0) → (DedupeUtil.mergeDuplicates a b).page_count ≠ 0) ∧
      ((DedupeUtil.mergeBase a b).page_count ≠ 0 →
        (DedupeUtil.mergeDuplicates a b).page_count = (DedupeUtil.mergeBase a b).page_count)) ∧
    (((a.publisher ≠ "" ∨ b.publisher ≠ "") → (DedupeUtil.mergeDuplicates a b).publisher ≠ "") ∧
      ((DedupeUtil.mergeBase a b).publisher ≠ "" →
        (DedupeUtil.mergeDuplicates a b).publisher = (DedupeUtil.mergeBase a b).publisher)) ∧
    (((a.goodreads_avg_rating ≠ 0 ∨ b.goodreads_avg_rating ≠ 0) →
        (DedupeUtil.mergeDuplicates a b).goodreads_avg_rating ≠ 0) ∧
      ((DedupeUtil.mergeBase a b).goodreads_avg_rating ≠ 0 →
        (DedupeUtil.mergeDuplicates a b).goodreads_avg_rating =
          (DedupeUtil.mergeBase a b).goodreads_avg_rating)) ∧
    (((a.goodreads_rating_count ≠ 0 ∨ b.goodreads_rating_count ≠ 0) →
        (DedupeUtil.mergeDuplicates a b).goodreads_rating_count ≠ 0) ∧
      ((DedupeUtil.mergeBase a b).goodreads_rating_count ≠ 0 →
        (DedupeUtil.mergeDuplicates a b).goodreads_rating_count =
          (DedupeUtil.mergeBase a b).goodreads_rating_count)) ∧
    (((a.date_started ≠ "" ∨ b.date_started ≠ "") →
        (DedupeUtil.mergeDuplicates a b).date_started ≠ "") ∧
      ((DedupeUtil.mergeBase a b).date_started ≠ "" →
        (DedupeUtil.mergeDuplicates a b).date_started = (DedupeUtil.mergeBase a b).date_started)) ∧
    (((a.date_finished ≠ "" ∨ b.date_finished ≠ "") →
        (DedupeUtil.mergeDuplicates a b).date_finished ≠ "") ∧
      ((DedupeUtil.mergeBase a b).date_finished ≠ "" →
        (DedupeUtil.mergeDuplicates a b).date_finished =
          (DedupeUtil.mergeBase a b).date_finished)) := by
  have hproj :
      (DedupeUtil.mergeDuplicates a b).rating
        = DedupeUtil.jsFill 0 (DedupeUtil.mergeBase a b).rating (DedupeUtil.mergeOther a b).rating ∧
      (DedupeUtil.mergeDuplicates a b).notes
        = DedupeUtil.jsFill "" (DedupeUtil.mergeBase a b).notes (DedupeUtil.mergeOther a b).notes ∧
      (DedupeUtil.mergeDuplicates a b).isbn
        = DedupeUtil.jsFill "" (DedupeUtil.mergeBase a b).isbn (DedupeUtil.mergeOther a b).isbn ∧
      (DedupeUtil.mergeDuplicates a b).cover_url
        = DedupeUtil.jsFill "" (DedupeUtil.mergeBase a b).cover_url
            (DedupeUtil.mergeOther a b).cover_url ∧
      (DedupeUtil.mergeDuplicates a b).page_count
        = DedupeUtil.jsFill 0 (DedupeUtil.mergeBase a b).page_count
            (DedupeUtil.mergeOther a b).page_count ∧
      (DedupeUtil.mergeDuplicates a b).publisher
        = DedupeUtil.jsFill "" (DedupeUtil.mergeBase a b).publisher
            (DedupeUtil.mergeOther a b).publisher ∧
      (DedupeUtil.mergeDuplicates a b).goodreads_avg_rating
        = DedupeUtil.jsFill 0 (DedupeUtil.mergeBase a b).goodreads_avg_rating
            (DedupeUtil.mergeOther a b).goodreads_avg_rating ∧
      (DedupeUtil.mergeDuplicates a b).goodreads_rating_count
        = DedupeUtil.jsFill 0 (DedupeUtil.mergeBase a b).goodreads_rating_count
            (DedupeUtil.mergeOther a b).goodreads_rating_count ∧
      (DedupeUtil.mergeDuplicates a b).date_started
        = DedupeUtil.jsFill "" (DedupeUtil.mergeBase a b).date_started
            (DedupeUtil.mergeOther a b).date_started ∧
      (DedupeUtil.mergeDuplicates a b).date_finished
        = DedupeUtil.jsFill "" (DedupeUtil.mergeBase a b).date_finished
            (DedupeUtil.mergeOther a b).date_finished :=
    ⟨rfl, rfl, rfl, rfl, rfl, rfl, rfl, rfl, rfl, rfl⟩
  obtain ⟨h1, h2, h3, h4, h5, h6, h7, h8, h9, h10⟩ := hproj
  rw [h1, h2, h3, h4, h5, h6, h7, h8, h9, h10]
  rcases mergeBase_or a b with ⟨hb, ho⟩ | ⟨hb, ho⟩ <;> rw [hb, ho]
  · exact ⟨⟨fun h => jsFill_pop _ _ _ h, fun h => jsFill_base _ _ _ h⟩,
      ⟨fun h => jsFill_pop _ _ _ h, fun h => jsFill_base _ _ _ h⟩,
      ⟨fun h => jsFill_pop _ _ _ h, fun h => jsFill_base _ _ _ h⟩,
      ⟨fun h => jsFill_pop _ _ _ h, fun h => jsFill_base _ _ _ h⟩,
      ⟨fun h => jsFill_pop _ _ _ h, fun h => jsFill_base _ _ _ h⟩,
      ⟨fun h => jsFill_pop _ _ _ h, fun h => jsFill_base _ _ _ h⟩,
      ⟨fun h => jsFill_pop _ _ _ h, fun h => jsFill_base _ _ _ h⟩,
      ⟨fun h => jsFill_pop _ _ _ h, fun h => jsFill_base _ _ _ h⟩,
      ⟨fun h => jsFill_pop _ _ _ h, fun h => jsFill_base _ _ _ h⟩,
      ⟨fun h => jsFill_pop _ _ _ h, fun h => jsFill_base _ _ _ h⟩⟩
  · exact ⟨⟨fun h => jsFill_pop _ _ _ h.symm, fun h => jsFill_base _ _ _ h⟩,
      ⟨fun h => jsFill_pop _ _ _ h.symm, fun h => jsFill_base _ _ _ h⟩,
      ⟨fun h => jsFill_pop _ _ _ h.symm, fun h => jsFill_base _ _ _ h⟩,
      ⟨fun h => jsFill_pop _ _ _ h.symm, fun h => jsFill_base _ _ _ h⟩,
      ⟨fun h => jsFill_pop _ _ _ h.symm, fun h => jsFill_base _ _ _ h⟩,
      ⟨fun h => jsFill_pop _ _ _ h.symm, fun h => jsFill_base _ _ _ h⟩,
      ⟨fun h => jsFill_pop _ _ _ h.symm, fun h => jsFill_base _ _ _ h⟩,
      ⟨fun h => jsFill_pop _ _ _ h.symm, fun h => jsFill_base _ _ _ h⟩,
      ⟨fun h => jsFill_pop _ _ _ h.symm, fun h => jsFill_base _ _ _ h⟩,
      ⟨fun h => jsFill_pop _ _ _ h.symm, fun h => jsFill_base _ _ _ h⟩⟩

/-- Witness for C2, at the spec's own example: `A` has notes and no
rating, `B` has a rating and no notes; the merge has both. -/
theorem claim_C2_merge_never_regresses_witness :
    (DedupeUtil.mergeDuplicates
        { title := "t", authors := ["x"], notes := "great book" }
        { title := "t", authors := ["x"], rating := 5 }).notes ≠ "" ∧
    (DedupeUtil.mergeDuplicates
        { title := "t", authors := ["x"], notes := "great book" }
        { title := "t", authors := ["x"], rating := 5 }).rating ≠ 0 := by
  have h := claim_C2_merge_never_regresses
    { title := "t", authors := ["x"], notes := "great book" }
    { title := "t", authors := ["x"], rating := 5 }
  exact ⟨h.2.1.1 (Or.inl (by decide)), h.1.1 (Or.inr (by decide))⟩

/-- **C1.** When both records carry the same non-empty ISBN, `isSameBook`
is true in both versions of the matcher, whatever the titles and authors. -/
theorem claim_C1_isbn_short_circuit (a b : CreateBookInput)
    (ha : a.isbn ≠ "") (hb : b.isbn ≠ "") (heq : a.isbn = b.isbn) :
    DedupeUtil.isSameBook a b = true ∧ Dedupe2.isSameBook a b = true := by
  constructor
  · unfold DedupeUtil.isSameBook
    rw [if_pos ⟨ha, hb, heq⟩]
  · unfold Dedupe2.isSameBook
    rw [if_pos ⟨ha, hb, heq⟩]

/-- Witness for C1, at the spec's own example records. -/
theorem claim_C1_isbn_short_circuit_witness :
    DedupeUtil.isSameBook { title := "Foo", authors := ["A"], isbn := "123" }
      { title := "Bar", authors := ["B"], isbn := "123" } = true ∧
    Dedupe2.isSameBook { title := "Foo", authors := ["A"], isbn := "123" }
      { title := "Bar", authors := ["B"], isbn := "123" } = true :=
  claim_C1_isbn_short_circuit _ _ (by decide) (by decide) rfl

theorem isSameBook_eq_true_iff (a b : CreateBookInput) :
    DedupeUtil.isSameBook a b = true ↔
      ((a.isbn ≠ "" ∧ b.isbn ≠ "" ∧ a.isbn = b.isbn) ∨
        ((∃ x ∈ a.authors.map DedupeUtil.normalizeAuthor,
            ∃ y ∈ b.authors.map DedupeUtil.normalizeAuthor,
            ¬ x = "" ∧ ¬ y = "" ∧ (jsIncludes x y = true ∨ jsIncludes y x = true)) ∧
          (DedupeUtil.normalizeTitle a.title = DedupeUtil.normalizeTitle b.title ∨
            (DedupeUtil.getCoreTitle a.title = DedupeUtil.getCoreTitle b.title ∧
              (DedupeUtil.getCoreTitle a.title).length ≥ 3) ∨
            ((DedupeUtil.normalizeTitle a.title).length ≥ 5 ∧
              (DedupeUtil.normalizeTitle b.title).length ≥ 5 ∧
              (jsIncludes (DedupeUtil.normalizeTitle a.title)
                  (DedupeUtil.normalizeTitle b.title) = true ∨
                jsIncludes (DedupeUtil.normalizeTitle b.title)
                  (DedupeUtil.normalizeTitle a.title) = true))))) := by
  unfold DedupeUtil.isSameBook
  dsimp only
  simp only [decide_eq_true_eq]
  by_cases h1 : a.isbn ≠ "" ∧ b.isbn ≠ "" ∧ a.isbn = b.isbn
  · rw [if_pos h1]
    exact iff_of_true rfl (Or.inl h1)
  · rw [if_neg h1]
    by_cases h2 : ∃ x ∈ a.authors.map DedupeUtil.normalizeAuthor,
        ∃ y ∈ b.authors.map DedupeUtil.normalizeAuthor,
        ¬ x = "" ∧ ¬ y = "" ∧ (jsIncludes x y = true ∨ jsIncludes y x = true)
    · rw [if_neg (not_not_intro h2)]
      by_cases h3 : DedupeUtil.normalizeTitle a.title = DedupeUtil.normalizeTitle b.title
      · rw [if_pos h3]
        exact iff_of_true rfl (Or.inr ⟨h2, Or.inl h3⟩)
      · rw [if_neg h3]
        by_cases h4 : DedupeUtil.getCoreTitle a.title = DedupeUtil.getCoreTitle b.title ∧
            (DedupeUtil.getCoreTitle a.title).length ≥ 3
        · rw [if_pos h4]
          exact iff_of_true rfl (Or.inr ⟨h2, Or.inr (Or.inl h4)⟩)
        · rw [if_neg h4]
          by_cases h5 : (DedupeUtil.normalizeTitle a.title).length ≥ 5 ∧
              (DedupeUtil.normalizeTitle b.title).length ≥ 5 ∧
              (jsIncludes (DedupeUtil.normalizeTitle a.title)
                  (DedupeUtil.normalizeTitle b.title) = true ∨
                jsIncludes (DedupeUtil.normalizeTitle b.title)
                  (DedupeUtil.normalizeTitle a.title) = true)
          · rw [if_pos h5]
            exact iff_of_true rfl (Or.inr ⟨h2, Or.inr (Or.inr h5)⟩)
          · rw [if_neg h5]
            refine iff_of_false (by simp) ?_
            rintro (h | ⟨-, h | h | h⟩)
            exacts [h1 h, h3 h, h4 h, h5 h]
    · rw [if_pos (by simpa using h2)]
      refine iff_of_false (by simp) ?_
      rintro (h | ⟨hh, -⟩)
      exacts [h1 h, h2 hh]

/-- **C10 counterexample.** The extended variant of `isSameBook`
(src/unnamed/part_002) is not symmetric: with the same author, title
"abcde" fuzzily matches title "abcd" (similarity 4/5 and the first core
title has length 5) but not the other way around, because the fuzzy
fallback's length guard reads only the first argument's core title. -/
theorem claim_C10_symmetry_counterexample :
    Dedupe2.isSameBook { title := "abcde", authors := ["john doe"] }
      { title := "abcd", authors := ["john doe"] } = true ∧
    Dedupe2.isSameBook { title := "abcd", authors := ["john doe"] }
      { title := "abcde", authors := ["john doe"] } = false := by
  constructor
  · unfold Dedupe2.isSameBook
    dsimp only
    rw [if_neg (by decide), if_neg (not_not_intro (by decide)), if_neg (by decide),
      if_neg (by decide), if_neg (by decide),
      if_pos ⟨fuzzyThreshold_le 4 5 (by decide) (by decide), by decide⟩]
  · unfold Dedupe2.isSameBook
    dsimp only
    rw [if_neg (by decide), if_neg (not_not_intro (by decide)), if_neg (by decide),
      if_neg (by decide), if_neg (by decide),
      if_neg (fun h => absurd h.2 (by decide))]

/-- **C10 (amended).** The `dedupeUtil.ts` version of `isSameBook` is
symmetric; the extended variant is not (see the counterexample), since its
fuzzy fallback checks the length of the first record's core title only. -/
theorem claim_C10_isSameBook_symmetric (a b : CreateBookInput) :
    DedupeUtil.isSameBook a b = DedupeUtil.isSameBook b a := by
  have key : ∀ x y : CreateBookInput,
      DedupeUtil.isSameBook x y = true → DedupeUtil.isSameBook y x = true := by
    intro x y h
    rw [isSameBook_eq_true_iff] at h ⊢
    rcases h with ⟨hx, hy, he⟩ | ⟨⟨u, hu, v, hv, hune, hvne, hincl⟩, htit⟩
    · exact Or.inl ⟨hy, hx, he.symm⟩
    · refine Or.inr ⟨⟨v, hv, u, hu, hvne, hune, hincl.symm⟩, ?_⟩
      rcases htit with h | ⟨hc, hl⟩ | ⟨h5a, h5b, hin⟩
      · exact Or.inl h.symm
      · exact Or.inr (Or.inl ⟨hc.symm, hc ▸ hl⟩)
      · exact Or.inr (Or.inr ⟨h5b, h5a, hin.symm⟩)
  cases hab : DedupeUtil.isSameBook a b
  · cases hba : DedupeUtil.isSameBook b a
    · rfl
    · exact absurd (key b a hba) (by simp [hab])
  · exact (key a b hab).symm

/-- **C4 counterexample.** The claim forgets the ISBN short-circuit: two
records sharing ISBN "123" and author "ann", whose titles "abcdef" and
"ghijkl" pass the author gate, fail the exact, core and containment
checks, and have token-overlap similarity 0 (< 0.7), are still matched by
the extended `isSameBook`, where the claim requires it to return false. -/
theorem claim_C4_fuzzy_fallback_counterexample :
    Dedupe2.authorsMatch ["ann"] ["ann"] = true ∧
    Dedupe2.normalizeTitle "abcdef" ≠ Dedupe2.normalizeTitle "ghijkl" ∧
    ¬ (Dedupe2.getCoreTitle "abcdef" = Dedupe2.getCoreTitle "ghijkl" ∧
        (Dedupe2.getCoreTitle "abcdef").length ≥ 3) ∧
    ¬ ((Dedupe2.normalizeTitle "abcdef").length ≥ 5 ∧
        (Dedupe2.normalizeTitle "ghijkl").length ≥ 5 ∧
        (jsIncludes (Dedupe2.normalizeTitle "abcdef") (Dedupe2.normalizeTitle "ghijkl") = true ∨
          jsIncludes (Dedupe2.normalizeTitle "ghijkl") (Dedupe2.normalizeTitle "abcdef") = true)) ∧
    ¬ ((7 : ℚ) / 10 ≤
          Dedupe2.stringSimilarity (Dedupe2.getCoreTitle "abcdef") (Dedupe2.getCoreTitle "ghijkl") ∧
        (Dedupe2.getCoreTitle "abcdef").length ≥ 5) ∧
    Dedupe2.isSameBook { title := "abcdef", authors := ["ann"], isbn := "123" }
      { title := "ghijkl", authors := ["ann"], isbn := "123" } = true := by
  refine ⟨by decide, by decide, by decide, by decide, ?_, ?_⟩
  · rintro ⟨hle, -⟩
    exact absurd hle (fuzzyThreshold_not_le 0 1 (by decide) (by decide))
  · unfold Dedupe2.isSameBook
    rw [if_pos ⟨by decide, by decide, rfl⟩]

/-- **C4 (amended).** For records that do not share a non-empty ISBN, pass
the author gate and fail the exact, core-title and containment checks, the
extended `isSameBook` is true exactly when the token-overlap similarity of
the two core titles is at least 0.7 and the first record's core title is
at least 5 characters long. -/
theorem claim_C4_fuzzy_fallback (a b : CreateBookInput)
    (hisbn : ¬ (a.isbn ≠ "" ∧ b.isbn ≠ "" ∧ a.isbn = b.isbn))
    (hgate : Dedupe2.authorsMatch a.authors b.authors = true)
    (hexact : Dedupe2.normalizeTitle a.title ≠ Dedupe2.normalizeTitle b.title)
    (hcore : ¬ (Dedupe2.getCoreTitle a.title = Dedupe2.getCoreTitle b.title ∧
        (Dedupe2.getCoreTitle a.title).length ≥ 3))
    (hcontain : ¬ ((Dedupe2.normalizeTitle a.title).length ≥ 5 ∧
        (Dedupe2.normalizeTitle b.title).length ≥ 5 ∧
        (jsIncludes (Dedupe2.normalizeTitle a.title) (Dedupe2.normalizeTitle b.title) = true ∨
          jsIncludes (Dedupe2.normalizeTitle b.title) (Dedupe2.normalizeTitle a.title) = true))) :
    Dedupe2.isSameBook a b = true ↔
      ((7 : ℚ) / 10 ≤
          Dedupe2.stringSimilarity (Dedupe2.getCoreTitle a.title) (Dedupe2.getCoreTitle b.title) ∧
        (Dedupe2.getCoreTitle a.title).length ≥ 5) := by
  unfold Dedupe2.isSameBook
  dsimp only
  rw [if_neg hisbn, if_neg (not_not_intro hgate), if_neg hexact, if_neg hcore,
    if_neg hcontain]
  split_ifs with h
  · exact iff_of_true rfl h
  · exact iff_of_false (by simp) h

/-- Witness for C4 (amended): same author "ann", titles
"aaaa bbbb cccc dddd" and "aaaa bbbb cccc eeee" share three of four words
(similarity 3/4 ≥ 0.7, core length 19 ≥ 5), so the fuzzy fallback fires. -/
theorem claim_C4_fuzzy_fallback_witness :
    Dedupe2.isSameBook { title := "aaaa bbbb cccc dddd", authors := ["ann"] }
      { title := "aaaa bbbb cccc eeee", authors := ["ann"] } = true :=
  (claim_C4_fuzzy_fallback
      { title := "aaaa bbbb cccc dddd", authors := ["ann"] }
      { title := "aaaa bbbb cccc eeee", authors := ["ann"] }
      (by decide) (by decide) (by decide) (by decide) (by decide)).mpr
    ⟨fuzzyThreshold_le 3 4 (by decide) (by decide), by decide⟩

theorem jsMapSet_mem {β : Type} {m : List (String × β)} {k : String}
    {v : β} {kv : String × β}
    (h : kv ∈ jsMapSet m k v) : kv ∈ m ∨ kv = (k, v) := by
  unfold jsMapSet at h
  split_ifs at h with hany
  · rcases List.mem_map.mp h with ⟨p, hp, he⟩
    by_cases hpk : p.1 = k
    · rw [if_pos hpk] at he
      exact Or.inr he.symm
    · rw [if_neg hpk] at he
      exact Or.inl (he ▸ hp)
  · rcases List.mem_append.mp h with h | h
    · exact Or.inl h
    · simp only [List.mem_singleton] at h
      exact Or.inr h

theorem mergeDuplicates_trace (a b : CreateBookInput) :
    ((DedupeUtil.mergeDuplicates a b).title = a.title ∧
      (DedupeUtil.mergeDuplicates a b).authors = a.authors ∧
      (a.isbn ≠ "" → (DedupeUtil.mergeDuplicates a b).isbn = a.isbn)) ∨
    ((DedupeUtil.mergeDuplicates a b).title = b.title ∧
      (DedupeUtil.mergeDuplicates a b).authors = b.authors ∧
      (b.isbn ≠ "" → (DedupeUtil.mergeDuplicates a b).isbn = b.isbn)) := by
  have htitle : (DedupeUtil.mergeDuplicates a b).title = (DedupeUtil.mergeBase a b).title := rfl
  have hauth : (DedupeUtil.mergeDuplicates a b).authors = (DedupeUtil.mergeBase a b).authors := rfl
  have hisbn : (DedupeUtil.mergeDuplicates a b).isbn
      = DedupeUtil.jsFill "" (DedupeUtil.mergeBase a b).isbn (DedupeUtil.mergeOther a b).isbn :=
    rfl
  rcases mergeBase_or a b with ⟨hb, -⟩ | ⟨hb, -⟩
  · left
    rw [htitle, hauth, hisbn, hb]
    exact ⟨rfl, rfl, fun h => jsFill_base _ _ _ h⟩
  · right
    rw [htitle, hauth, hisbn, hb]
    exact ⟨rfl, rfl, fun h => jsFill_base _ _ _ h⟩

theorem dedupeStep_cases (seen : List (String × CreateBookInput)) (book : CreateBookInput) :
    ∀ kv ∈ DedupeUtil.dedupeStep seen book,
      kv ∈ seen ∨ kv.2 = book ∨
        ∃ kv' ∈ seen, kv.2 = DedupeUtil.mergeDuplicates kv'.2 book := by
  have hscan : ∀ key, ∀ kv ∈ DedupeUtil.dedupeScan seen book key,
      kv ∈ seen ∨ kv.2 = book ∨
        ∃ kv' ∈ seen, kv.2 = DedupeUtil.mergeDuplicates kv'.2 book := by
    intro key kv hkv
    unfold DedupeUtil.dedupeScan at hkv
    cases hfind : seen.find? fun kv => DedupeUtil.isSameBook book kv.2 with
    | none =>
      rw [hfind] at hkv
      rcases jsMapSet_mem hkv with h | h
      · exact Or.inl h
      · exact Or.inr (Or.inl (by rw [h]))
    | some kv' =>
      rw [hfind] at hkv
      rcases jsMapSet_mem hkv with h | h
      · exact Or.inl h
      · exact Or.inr (Or.inr ⟨kv', List.mem_of_find?_eq_some hfind, by rw [h]⟩)
  intro kv hkv
  unfold DedupeUtil.dedupeStep at hkv
  dsimp only at hkv
  split at hkv
  next existing heq =>
    split_ifs at hkv with hsb
    · rcases jsMapSet_mem hkv with h | h
      · exact Or.inl h
      · unfold jsMapGet at heq
        rcases Option.map_eq_some'.mp heq with ⟨kv', hfind, hv⟩
        refine Or.inr (Or.inr ⟨kv', List.mem_of_find?_eq_some hfind, ?_⟩)
        rw [h, hv]
    · exact hscan _ kv hkv
  next heq => exact hscan _ kv hkv

theorem jsIncludes_self (s : String) : jsIncludes s s = true := by
  unfold jsIncludes jsIncludesL
  refine List.any_eq_true.mpr ⟨s.data, ?_, ?_⟩
  · exact (List.mem_tails _ _).mpr (List.suffix_refl _)
  · exact List.isPrefixOf_iff_prefix.mpr (List.prefix_refl _)

/-- Every accumulator entry of the dedupe fold carries the title and
authors of some input record and preserves that record's non-empty ISBN. -/
theorem dedupe_foldl_trace (X : List CreateBookInput) (l : List CreateBookInput) :
    ∀ seen : List (String × CreateBookInput),
      (∀ x ∈ l, x ∈ X) →
      (∀ kv ∈ seen, ∃ r ∈ X, kv.2.title = r.title ∧ kv.2.authors = r.authors ∧
        (r.isbn ≠ "" → kv.2.isbn = r.isbn)) →
      ∀ kv ∈ l.foldl DedupeUtil.dedupeStep seen,
        ∃ r ∈ X, kv.2.title = r.title ∧ kv.2.authors = r.authors ∧
          (r.isbn ≠ "" → kv.2.isbn = r.isbn) := by
  induction l with
  | nil => exact fun seen _ hseen kv hkv => hseen kv hkv
  | cons x t ih =>
    intro seen hl hseen kv hkv
    simp only [List.foldl_cons] at hkv
    refine ih (DedupeUtil.dedupeStep seen x)
      (fun y hy => hl y (List.mem_cons_of_mem _ hy)) ?_ kv hkv
    intro kv2 hkv2
    rcases dedupeStep_cases seen x kv2 hkv2 with h | h | ⟨kv', hkv', hmerge⟩
    · exact hseen kv2 h
    · exact ⟨x, hl x (List.mem_cons_self _ _), by rw [h], by rw [h], fun _ => by rw [h]⟩
    · obtain ⟨r, hr, ht, ha, hi⟩ := hseen kv' hkv'
      rcases mergeDuplicates_trace kv'.2 x with ⟨mt, ma, mi⟩ | ⟨mt, ma, mi⟩
      · refine ⟨r, hr, ?_, ?_, ?_⟩
        · rw [hmerge, mt, ht]
        · rw [hmerge, ma, ha]
        · intro hne
          rw [hmerge, mi (by rw [hi hne]; exact hne), hi hne]
      · exact ⟨x, hl x (List.mem_cons_self _ _), by rw [hmerge, mt], by rw [hmerge, ma],
          fun hne => by rw [hmerge, mi hne]⟩

/-- Every output of `dedupeBookInputs` carries the title/authors of some
input and preserves that input's non-empty ISBN. -/
theorem dedupeBookInputs_trace (X : List CreateBookInput) :
    ∀ m ∈ DedupeUtil.dedupeBookInputs X,
      ∃ r ∈ X, m.title = r.title ∧ m.authors = r.authors ∧
        (r.isbn ≠ "" → m.isbn = r.isbn) := by
  intro m hm
  unfold DedupeUtil.dedupeBookInputs at hm
  rcases List.mem_map.mp hm with ⟨kv, hkv, hkv2⟩
  obtain ⟨r, hr, h1, h2, h3⟩ :=
    dedupe_foldl_trace X X [] (fun x hx => hx) (by simp) kv hkv
  exact ⟨r, hr, hkv2 ▸ h1, hkv2 ▸ h2, fun hne => hkv2 ▸ h3 hne⟩

/-- A record that shares title and authors with `r` (and `r`'s non-empty
ISBN, when `r` has one) is `isSameBook`-matched with `r`, provided `r`
has a non-empty ISBN or some author with non-empty normalization. -/
theorem isSameBook_of_trace (m r : CreateBookInput)
    (ht : m.title = r.title) (ha : m.authors = r.authors)
    (hi : r.isbn ≠ "" → m.isbn = r.isbn)
    (hok : r.isbn ≠ "" ∨ ∃ a ∈ r.authors, DedupeUtil.normalizeAuthor a ≠ "") :
    DedupeUtil.isSameBook m r = true := by
  rw [isSameBook_eq_true_iff]
  rcases hok with hisbn | ⟨a, haa, hane⟩
  · exact Or.inl ⟨by rw [hi hisbn]; exact hisbn, hisbn, hi hisbn⟩
  · refine Or.inr ⟨⟨DedupeUtil.normalizeAuthor a, ?_, DedupeUtil.normalizeAuthor a, ?_,
      hane, hane, Or.inl (jsIncludes_self _)⟩, Or.inl (by rw [ht])⟩
    · exact List.mem_map_of_mem _ (ha ▸ haa)
    · exact List.mem_map_of_mem _ haa

/-- **C3 counterexample.**  Three records by the same author — titles
"ab xyzzy" (plain), "ab: xyzzy" (with a rating, so it wins merges), and
"ab: qwerty" — make `dedupeBookInputs` non-idempotent set-wise: the first
pass yields the merged "ab: xyzzy" record plus "ab: qwerty" (stored under
different keys), the second pass recomputes the merged record's key, which
now collides with "ab: qwerty"'s key without `isSameBook` holding, so
`Map.set` silently overwrites it, and the surviving record does not match
the dropped one.  Hence the two lists are not mutually `isSameBook`-covered
in either orientation. -/
theorem claim_C3_dedupe_idempotent_counterexample :
    ¬ ((∀ m ∈ DedupeUtil.dedupeBookInputs (DedupeUtil.dedupeBookInputs
          [{ title := "ab xyzzy", authors := ["john doe"] },
           { title := "ab: xyzzy", authors := ["john doe"], rating := 5 },
           { title := "ab: qwerty", authors := ["john doe"] }]),
        ∃ r ∈ DedupeUtil.dedupeBookInputs
          [{ title := "ab xyzzy", authors := ["john doe"] },
           { title := "ab: xyzzy", authors := ["john doe"], rating := 5 },
           { title := "ab: qwerty", authors := ["john doe"] }],
          DedupeUtil.isSameBook m r = true) ∧
      (∀ r ∈ DedupeUtil.dedupeBookInputs
          [{ title := "ab xyzzy", authors := ["john doe"] },
           { title := "ab: xyzzy", authors := ["john doe"], rating := 5 },
           { title := "ab: qwerty", authors := ["john doe"] }],
        ∃ m ∈ DedupeUtil.dedupeBookInputs (DedupeUtil.dedupeBookInputs
          [{ title := "ab xyzzy", authors := ["john doe"] },
           { title := "ab: xyzzy", authors := ["john doe"], rating := 5 },
           { title := "ab: qwerty", authors := ["john doe"] }]),
          DedupeUtil.isSameBook r m = true)) := by
  decide

/-- **C3 (amended).**  One inclusion survives: when every input record has
a non-empty ISBN or an author with non-empty normalization, every record
of `dedupeBookInputs (dedupeBookInputs X)` is `isSameBook`-matched by some
record of `dedupeBookInputs X`.  The reverse inclusion is refuted by the
counterexample (a record of the first pass can be silently overwritten by
a key collision during the second pass). -/
theorem claim_C3_dedupe_idempotent_forward (X : List CreateBookInput)
    (h : ∀ r ∈ X, r.isbn ≠ "" ∨ ∃ a ∈ r.authors, DedupeUtil.normalizeAuthor a ≠ "") :
    ∀ m ∈ DedupeUtil.dedupeBookInputs (DedupeUtil.dedupeBookInputs X),
      ∃ r ∈ DedupeUtil.dedupeBookInputs X, DedupeUtil.isSameBook m r = true := by
  intro m hm
  obtain ⟨r1, hr1, ht, ha, hi⟩ := dedupeBookInputs_trace _ m hm
  refine ⟨r1, hr1, ?_⟩
  obtain ⟨r0, hr0, ht0, ha0, hi0⟩ := dedupeBookInputs_trace X r1 hr1
  rcases h r0 hr0 with hisbn | ⟨a, haa, hane⟩
  · exact isSameBook_of_trace m r1 ht ha hi (Or.inl (by rw [hi0 hisbn]; exact hisbn))
  · exact isSameBook_of_trace m r1 ht ha hi (Or.inr ⟨a, ha0 ▸ haa, hane⟩)

/-- Witness for C3 (amended), on a one-record list. -/
theorem claim_C3_dedupe_idempotent_forward_witness :
    (∀ r ∈ [({ title := "dune", authors := ["frank herbert"] } : CreateBookInput)],
      r.isbn ≠ "" ∨ ∃ a ∈ r.authors, DedupeUtil.normalizeAuthor a ≠ "") ∧
    ∀ m ∈ DedupeUtil.dedupeBookInputs (DedupeUtil.dedupeBookInputs
        [({ title := "dune", authors := ["frank herbert"] } : CreateBookInput)]),
      ∃ r ∈ DedupeUtil.dedupeBookInputs
        [({ title := "dune", authors := ["frank herbert"] } : CreateBookInput)],
        DedupeUtil.isSameBook m r = true :=
  ⟨by decide, claim_C3_dedupe_idempotent_forward _ (by decide)⟩

theorem parseCSVAux_step (c : Char) (hc : c ≠ '"') (rest : List Char)
    (curF : List Char) (curR : List String) (rows : List (List String)) :
    ReadwiseImport.parseCSVAux (c :: rest) true curF curR rows
      = ReadwiseImport.parseCSVAux rest true (curF ++ [c]) curR rows := by
  conv_lhs => rw [ReadwiseImport.parseCSVAux.eq_def]
  split
  all_goals simp_all

theorem parseCSVAux_open (rest : List Char)
    (curF : List Char) (curR : List String) (rows : List (List String)) :
    ReadwiseImport.parseCSVAux ('"' :: rest) false curF curR rows
      = ReadwiseImport.parseCSVAux rest true curF curR rows := by
  conv_lhs => rw [ReadwiseImport.parseCSVAux.eq_def]
  split
  all_goals try simp_all
  rename_i hq heq h2 h3 h4
  exact absurd heq.1.symm hq

theorem escapeQuotes_cons_ne (c : Char) (hc : c ≠ '"') (t : List Char) :
    escapeQuotes (c :: t) = c :: escapeQuotes t := by
  simp [escapeQuotes, hc]

/-- Scanning an escaped field body inside quotes accumulates exactly the
unescaped body and ends after the closing quote. -/
theorem parseCSVAux_quoted (l : List Char) : ∀ (curF : List Char) (curR : List String)
    (rows : List (List String)),
    ReadwiseImport.parseCSVAux (escapeQuotes l ++ ['"']) true curF curR rows
      = ReadwiseImport.csvFlushEnd (curF ++ l) curR rows := by
  induction l with
  | nil =>
    intro curF curR rows
    simp [escapeQuotes, ReadwiseImport.parseCSVAux]
  | cons c t ih =>
    intro curF curR rows
    by_cases hc : c = '"'
    · subst hc
      show ReadwiseImport.parseCSVAux (escapeQuotes t ++ ['"']) true (curF ++ ['"']) curR rows
        = ReadwiseImport.csvFlushEnd (curF ++ '"' :: t) curR rows
      rw [ih]
      simp
    · rw [escapeQuotes_cons_ne c hc, List.cons_append, parseCSVAux_step c hc, ih]
      simp

/-- **C5 counterexample.**  The claim covers "the CSV parsing used by the
CSV-based importers (Goodreads, Libby, Readwise)", but the Goodreads and
Libby readers split the text on newlines before parsing quotes: feeding
the Libby importer a well-formed CSV whose title field is the RFC-quoted
`Hello, "World"\nLine2` yields no loan at all (both half-rows have fewer
than nine fields and are discarded), rather than a row carrying the
original value. -/
theorem claim_C5_csv_roundtrip_counterexample :
    rfcQuote "Hello, \"World\"\nLine2" = "\"Hello, \"\"World\"\"\nLine2\"" ∧
    LibbyImport.parseLibbyCSV
      ("cover,title,author,publisher,isbn,timestamp,activity,details,library\nc,"
        ++ rfcQuote "Hello, \"World\"\nLine2" ++ ",a,p,i,t,Borrowed,d,l") = [] := by
  constructor
  · decide
  · decide

/-- **C5 (amended).**  Round-tripping holds for the shared tolerant reader
`parseCSV` of the Readwise importer: every trim-stable non-empty field
value — embedded commas, quotes and newlines included — parses back from
its RFC-quoted form as the single field of the single row.  (Values with
leading or trailing whitespace are trimmed by the reader, and the
line-splitting Goodreads/Libby readers lose embedded newlines, per the
counterexample.) -/
theorem claim_C5_csv_roundtrip (v : String) (htrim : jsTrim v = v) (hne : v ≠ "") :
    ReadwiseImport.parseCSV (rfcQuote v) = [[v]] := by
  show ReadwiseImport.parseCSVAux ('"' :: (escapeQuotes v.data ++ ['"'])) false [] [] [] = [[v]]
  rw [parseCSVAux_open, parseCSVAux_quoted]
  have hdata : v.data ≠ [] := by
    intro h
    apply hne
    cases v
    simp_all
  have htrim' : (⟨listTrim v.data⟩ : String) = v := htrim
  simp [ReadwiseImport.csvFlushEnd, ReadwiseImport.pushRow, hdata, htrim', hne]

/-- Witness for C5 (amended), at the spec's own example value. -/
theorem claim_C5_csv_roundtrip_witness :
    ReadwiseImport.parseCSV (rfcQuote "Hello, \"World\"\nLine2")
      = [["Hello, \"World\"\nLine2"]] :=
  claim_C5_csv_roundtrip "Hello, \"World\"\nLine2" (by decide) (by decide)

/-- **C6 counterexample.**  The Goodreads date parser does not reject
malformed dates: any string with exactly three `/`-separated parts is
converted, so the non-date "a/b/c" yields the fabricated value "a-0b-0c"
where the claim requires undefined. -/
theorem claim_C6_goodreads_date_counterexample :
    GoodreadsImport.parseGoodreadsDate "a/b/c" = some "a-0b-0c" := by
  decide

/-- **C6 (amended).**  Well-formed `YYYY/MM/DD` strings are converted to
`YYYY-MM-DD`, and empty/whitespace-only strings or strings without
exactly three `/`-separated parts yield undefined; but any non-blank
three-part string is converted verbatim (with zero-padding), so malformed
three-part strings fabricate a date-like value instead of being
rejected. -/
theorem claim_C6_goodreads_date (s : String) :
    (jsTrim s = "" → GoodreadsImport.parseGoodreadsDate s = none) ∧
    (∀ p0 p1 p2 : String, jsTrim s ≠ "" → jsSplit '/' s = [p0, p1, p2] →
      GoodreadsImport.parseGoodreadsDate s
        = some (p0 ++ "-" ++ padStart2 p1 ++ "-" ++ padStart2 p2)) ∧
    ((jsSplit '/' s).length ≠ 3 → GoodreadsImport.parseGoodreadsDate s = none) := by
  refine ⟨?_, ?_, ?_⟩
  · intro h
    unfold GoodreadsImport.parseGoodreadsDate
    rw [if_pos h]
  · intro p0 p1 p2 hne hsplit
    unfold GoodreadsImport.parseGoodreadsDate
    rw [if_neg hne, hsplit]
  · intro hlen
    unfold GoodreadsImport.parseGoodreadsDate
    split_ifs with h
    · rfl
    · rcases hsp : jsSplit '/' s with _ | ⟨a, _ | ⟨b, _ | ⟨c, _ | l⟩⟩⟩ <;>
        first
        | rfl
        | (exact absurd (by rw [hsp]; rfl) hlen)

/-- Witness for C6 (amended): the spec's well-formed example date. -/
theorem claim_C6_goodreads_date_witness :
    GoodreadsImport.parseGoodreadsDate "2023/06/15" = some "2023-06-15" := by
  have h := (claim_C6_goodreads_date "2023/06/15").2.1 "2023" "06" "15" (by decide) (by decide)
  rw [h]
  decide

theorem optToList_if (f : LibbyImport.LibbyLoan → Option String) (x : LibbyImport.LibbyLoan)
    (xs : List LibbyImport.LibbyLoan) :
    List.filterMap f (x :: xs) = (f x).toList ++ List.filterMap f xs := by
  rcases h : f x <;> simp [List.filterMap_cons, h]

theorem consStep_state (pt : String → Option String) (k : String)
    (cb : LibbyImport.ConsolidatedBook) (l : LibbyImport.LibbyLoan)
    (hk : LibbyImport.libbyKey l = k) :
    ∃ cb2 : LibbyImport.ConsolidatedBook,
      LibbyImport.consStep pt [(k, cb)] l = [(k, cb2)] ∧
      cb2.borrowDates = cb.borrowDates ++
        (if l.activity = "Borrowed" then (pt l.timestamp).toList else []) ∧
      cb2.returnDates = cb.returnDates ++
        (if l.activity = "Returned" then (pt l.timestamp).toList else []) := by
  unfold LibbyImport.consStep
  rw [hk]
  dsimp only
  have hget : jsMapGet [(k, cb)] k = some cb := by simp [jsMapGet]
  rw [hget]
  have hset : ∀ c2 : LibbyImport.ConsolidatedBook, jsMapSet [(k, cb)] k c2 = [(k, c2)] := by
    intro c2
    simp [jsMapSet]
  rcases hpt : pt l.timestamp with _ | d
  · refine ⟨_, hset _, ?_, ?_⟩ <;> split_ifs <;> simp
  · by_cases hb : l.activity = "Borrowed"
    · refine ⟨_, hset _, ?_, ?_⟩ <;>
        simp [hb, show ¬ ("Borrowed" = "Returned") from by decide] <;> split_ifs <;> simp
    · by_cases hr : l.activity = "Returned"
      · refine ⟨_, hset _, ?_, ?_⟩ <;> simp [hb, hr] <;> split_ifs <;> simp
      · refine ⟨_, hset _, ?_, ?_⟩ <;> simp [hb, hr] <;> split_ifs <;> simp

theorem consStep_init (pt : String → Option String) (k : String) (l : LibbyImport.LibbyLoan)
    (hk : LibbyImport.libbyKey l = k) :
    ∃ cb2 : LibbyImport.ConsolidatedBook,
      LibbyImport.consStep pt [] l = [(k, cb2)] ∧
      cb2.borrowDates = (if l.activity = "Borrowed" then (pt l.timestamp).toList else []) ∧
      cb2.returnDates = (if l.activity = "Returned" then (pt l.timestamp).toList else []) := by
  unfold LibbyImport.consStep
  rw [hk]
  dsimp only
  have hget : jsMapGet ([] : List (String × LibbyImport.ConsolidatedBook)) k = none := by
    simp [jsMapGet]
  rw [hget]
  have hset : ∀ c2 : LibbyImport.ConsolidatedBook,
      jsMapSet ([] : List (String × LibbyImport.ConsolidatedBook)) k c2 = [(k, c2)] := by
    intro c2
    simp [jsMapSet]
  rcases hpt : pt l.timestamp with _ | d
  · refine ⟨_, hset _, ?_, ?_⟩ <;> split_ifs <;> simp
  · by_cases hb : l.activity = "Borrowed"
    · refine ⟨_, hset _, ?_, ?_⟩ <;>
        simp [hb, show ¬ ("Borrowed" = "Returned") from by decide] <;> split_ifs <;> simp
    · by_cases hr : l.activity = "Returned"
      · refine ⟨_, hset _, ?_, ?_⟩ <;> simp [hb, hr] <;> split_ifs <;> simp
      · refine ⟨_, hset _, ?_, ?_⟩ <;> simp [hb, hr] <;> split_ifs <;> simp

theorem cons_fold (pt : String → Option String) (k : String) :
    ∀ (t : List LibbyImport.LibbyLoan) (cb : LibbyImport.ConsolidatedBook),
    (∀ l ∈ t, LibbyImport.libbyKey l = k) →
    ∃ cb' : LibbyImport.ConsolidatedBook,
      t.foldl (LibbyImport.consStep pt) [(k, cb)] = [(k, cb')] ∧
      cb'.borrowDates = cb.borrowDates ++
        t.filterMap (fun l => if l.activity = "Borrowed" then pt l.timestamp else none) ∧
      cb'.returnDates = cb.returnDates ++
        t.filterMap (fun l => if l.activity = "Returned" then pt l.timestamp else none) := by
  intro t
  induction t with
  | nil => exact fun cb _ => ⟨cb, rfl, by simp, by simp⟩
  | cons l t ih =>
    intro cb hkeys
    obtain ⟨cb2, hstep, hb2, hr2⟩ := consStep_state pt k cb l (hkeys l (List.mem_cons_self _ _))
    rw [List.foldl_cons, hstep]
    obtain ⟨cb', hfold, hb', hr'⟩ := ih cb2 (fun x hx => hkeys x (List.mem_cons_of_mem _ hx))
    refine ⟨cb', hfold, ?_, ?_⟩
    · rw [hb', hb2, optToList_if]
      have h1 : (if l.activity = "Borrowed" then (pt l.timestamp).toList else [])
          = ((if l.activity = "Borrowed" then pt l.timestamp else none).toList) := by
        split_ifs <;> simp
      rw [h1, List.append_assoc]
    · rw [hr', hr2, optToList_if]
      have h1 : (if l.activity = "Returned" then (pt l.timestamp).toList else [])
          = ((if l.activity = "Returned" then pt l.timestamp else none).toList) := by
        split_ifs <;> simp
      rw [h1, List.append_assoc]

theorem sorted_le_getLastD (l : List String) (hs : l.Sorted (· ≤ ·)) :
    ∀ d ∈ l, d ≤ l.getLastD "" := by
  induction l with
  | nil => intro d hd; cases hd
  | cons a t ih =>
    intro d hd
    rcases t with _ | ⟨b, t2⟩
    · simp only [List.mem_singleton] at hd
      subst hd
      exact le_refl _
    · have hlast : (a :: b :: t2).getLastD "" = (b :: t2).getLastD "" := by
        simp [List.getLastD_eq_getLast?, List.getLast?]
      rw [hlast]
      rcases List.mem_cons.mp hd with rfl | hd2
      · exact le_trans (List.rel_of_sorted_cons hs b (List.mem_cons_self _ _))
          (ih hs.of_cons b (List.mem_cons_self _ _))
      · exact ih hs.of_cons d hd2

theorem getLastD_mem (l : List String) (hne : l ≠ []) : l.getLastD "" ∈ l := by
  induction l with
  | nil => exact absurd rfl hne
  | cons a t ih =>
    rcases t with _ | ⟨b, t2⟩
    · simp
    · have h : (a :: b :: t2).getLastD "" = (b :: t2).getLastD "" := by
        simp [List.getLastD_eq_getLast?, List.getLast?]
      rw [h]
      exact List.mem_cons_of_mem _ (ih (by simp))

theorem claim_C7_libby_consolidation (pt : String → Option String) (loans : List LibbyImport.LibbyLoan)
    (k : String) (hne : loans ≠ [])
    (hkey : ∀ l ∈ loans, LibbyImport.libbyKey l = k)
    (hclean : ∀ l ∈ loans, pt l.timestamp ≠ some "") :
    ∃ c : CreateBookInput,
      (LibbyImport.consolidateLoans pt loans).map LibbyImport.libbyToBookInput = [c] ∧
      ((loans.filterMap (fun l => if l.activity = "Borrowed" then pt l.timestamp else none) ≠ [] →
        c.date_started ∈
          loans.filterMap (fun l => if l.activity = "Borrowed" then pt l.timestamp else none) ∧
        ∀ d ∈ loans.filterMap (fun l => if l.activity = "Borrowed" then pt l.timestamp else none),
          c.date_started ≤ d) ∧
      (loans.filterMap (fun l => if l.activity = "Returned" then pt l.timestamp else none) = [] →
        c.date_finished = "" ∧ c.status = "tbd") ∧
      (loans.filterMap (fun l => if l.activity = "Returned" then pt l.timestamp else none) ≠ [] →
        c.date_finished ∈
          loans.filterMap (fun l => if l.activity = "Returned" then pt l.timestamp else none) ∧
        (∀ d ∈ loans.filterMap (fun l => if l.activity = "Returned" then pt l.timestamp else none),
          d ≤ c.date_finished) ∧
        c.status = "finished")) := by
  rcases loans with _ | ⟨l0, t⟩
  · exact absurd rfl hne
  obtain ⟨cb0, hstep0, hb0, hr0⟩ := consStep_init pt k l0 (hkey l0 (List.mem_cons_self _ _))
  obtain ⟨cbF, hfold, hbF, hrF⟩ :=
    cons_fold pt k t cb0 (fun x hx => hkey x (List.mem_cons_of_mem _ hx))
  have hcons : LibbyImport.consolidateLoans pt (l0 :: t) = [cbF] := by
    unfold LibbyImport.consolidateLoans
    rw [List.foldl_cons, hstep0, hfold]
    rfl
  have hBeq : cbF.borrowDates
      = (l0 :: t).filterMap (fun l => if l.activity = "Borrowed" then pt l.timestamp else none) := by
    rw [hbF, hb0, optToList_if]
    congr 1
    split_ifs <;> simp
  have hReq : cbF.returnDates
      = (l0 :: t).filterMap (fun l => if l.activity = "Returned" then pt l.timestamp else none) := by
    rw [hrF, hr0, optToList_if]
    congr 1
    split_ifs <;> simp
  have hstatus_eq : (LibbyImport.libbyToBookInput cbF).status
      = (if (LibbyImport.libbyToBookInput cbF).date_finished ≠ "" then "finished" else "tbd") :=
    rfl
  refine ⟨LibbyImport.libbyToBookInput cbF, by rw [hcons]; rfl, ?_, ?_, ?_⟩
  · intro hBne
    rw [← hBeq] at hBne ⊢
    have hperm : (LibbyImport.sortStr cbF.borrowDates).Perm cbF.borrowDates :=
      List.perm_insertionSort _ _
    have hsorted : (LibbyImport.sortStr cbF.borrowDates).Sorted (· ≤ ·) :=
      List.sorted_insertionSort _ _
    have hlen : (LibbyImport.sortStr cbF.borrowDates).length = cbF.borrowDates.length :=
      hperm.length_eq
    rcases hS : LibbyImport.sortStr cbF.borrowDates with _ | ⟨a, rest⟩
    · exact absurd (by rw [← hlen, hS] : cbF.borrowDates.length = List.length [])
        (fun h => hBne (List.length_eq_zero.mp h))
    · rw [hS] at hperm hsorted
      have hds : (LibbyImport.libbyToBookInput cbF).date_started = a := by
        unfold LibbyImport.libbyToBookInput
        dsimp only
        rw [hS]
        simp
      rw [hds]
      refine ⟨hperm.mem_iff.mp (List.mem_cons_self _ _), ?_⟩
      intro d hd
      rcases List.mem_cons.mp (hperm.mem_iff.mpr hd) with rfl | hd2
      · exact le_refl _
      · exact List.rel_of_sorted_cons hsorted d hd2
  · intro hRe
    rw [← hReq] at hRe
    have hS : LibbyImport.sortStr cbF.returnDates = [] := by rw [hRe]; rfl
    have hdf : (LibbyImport.libbyToBookInput cbF).date_finished = "" := by
      unfold LibbyImport.libbyToBookInput
      dsimp only
      rw [hS]
      simp
    refine ⟨hdf, ?_⟩
    rw [hstatus_eq, hdf]
    simp
  · intro hRne
    rw [← hReq] at hRne ⊢
    have hperm : (LibbyImport.sortStr cbF.returnDates).Perm cbF.returnDates :=
      List.perm_insertionSort _ _
    have hsorted : (LibbyImport.sortStr cbF.returnDates).Sorted (· ≤ ·) :=
      List.sorted_insertionSort _ _
    have hlen : (LibbyImport.sortStr cbF.returnDates).length = cbF.returnDates.length :=
      hperm.length_eq
    rcases hS : LibbyImport.sortStr cbF.returnDates with _ | ⟨a, rest⟩
    · exact absurd (by rw [← hlen, hS] : cbF.returnDates.length = List.length [])
        (fun h => hRne (List.length_eq_zero.mp h))
    · rw [hS] at hperm hsorted
      have hdf : (LibbyImport.libbyToBookInput cbF).date_finished = (a :: rest).getLastD "" := by
        unfold LibbyImport.libbyToBookInput
        dsimp only
        rw [hS]
        simp
      have hmem : (a :: rest).getLastD "" ∈ cbF.returnDates :=
        hperm.mem_iff.mp (getLastD_mem _ (by simp))
      have hne2 : (a :: rest).getLastD "" ≠ "" := by
        intro hcontra
        obtain ⟨l, hl, hfl⟩ := List.mem_filterMap.mp (hReq ▸ hmem)
        have hpl : pt l.timestamp = some ((a :: rest).getLastD "") := by
          by_cases hb : l.activity = "Returned"
          · rw [if_pos hb] at hfl
            exact hfl
          · rw [if_neg hb] at hfl
            cases hfl
        exact hclean l hl (by rw [hpl, hcontra])
      rw [hdf]
      refine ⟨hmem, ?_, ?_⟩
      · intro d hd
        exact sorted_le_getLastD (a :: rest) hsorted d (hperm.mem_iff.mpr hd)
      · rw [hstatus_eq, hdf, if_pos hne2]

/-- Witness for C7, at the spec's own scenario: one loan Borrowed
2024-01-01 and one Returned 2024-01-15 for the same title and author. -/
theorem claim_C7_libby_consolidation_witness :
    ∃ c : CreateBookInput,
      (LibbyImport.consolidateLoans
          (fun s => if s = "t1" then some "2024-01-01"
            else if s = "t2" then some "2024-01-15" else none)
          [{ title := "T", author := "A", activity := "Borrowed", timestamp := "t1" },
           { title := "T", author := "A", activity := "Returned", timestamp := "t2" }]).map
        LibbyImport.libbyToBookInput = [c] ∧
      c.date_started = "2024-01-01" ∧ c.date_finished = "2024-01-15" ∧ c.status = "finished" := by
  obtain ⟨c, hc, hB, -, hR⟩ := claim_C7_libby_consolidation
    (fun s => if s = "t1" then some "2024-01-01"
      else if s = "t2" then some "2024-01-15" else none)
    [{ title := "T", author := "A", activity := "Borrowed", timestamp := "t1" },
     { title := "T", author := "A", activity := "Returned", timestamp := "t2" }]
    "t|a" (by decide) (by decide) (by decide)
  have hB2 := (hB (by decide)).1
  have hR2 := (hR (by decide)).1
  have hst := (hR (by decide)).2.2
  simp at hB2 hR2
  exact ⟨c, hc, hB2, hR2, hst⟩

/-- **C8 counterexample.**  `importKindleText` performs no deduplication:
pasting the same title/author pair twice yields two records that
`isSameBook` judges to be the same book, where the claim requires the
result never to contain such a pair. -/
theorem claim_C8_kindle_dedupe_counterexample :
    KindleImport.importKindleText "Dune\nFrank Herbert\nDune\nFrank Herbert"
      = [{ title := "Dune", authors := ["Frank Herbert"], status := "tbd", source := "kindle" },
         { title := "Dune", authors := ["Frank Herbert"], status := "tbd", source := "kindle" }] ∧
    DedupeUtil.isSameBook
      { title := "Dune", authors := ["Frank Herbert"], status := "tbd", source := "kindle" }
      { title := "Dune", authors := ["Frank Herbert"], status := "tbd", source := "kindle" }
      = true := by
  constructor
  · decide
  · decide

/-- **C8 (amended).**  The pasted-library importer maps the parsed
title/author pairs directly to candidates — status `tbd`, source tag
`kindle` — and applies no deduplication pass, so repeated pasted entries
produce duplicate records. -/
theorem claim_C8_kindle_no_dedupe (text : String) :
    KindleImport.importKindleText text
      = (KindleImport.parseKindleText text).map KindleImport.kindleToBookInput ∧
    ∀ b ∈ KindleImport.importKindleText text, b.status = "tbd" ∧ b.source = "kindle" := by
  refine ⟨rfl, ?_⟩
  intro b hb
  rcases List.mem_map.mp hb with ⟨p, hp, hpb⟩
  exact ⟨by rw [← hpb]; rfl, by rw [← hpb]; rfl⟩

/-- Witness for C8 (amended). -/
theorem claim_C8_kindle_no_dedupe_witness :
    ({ title := "Dune", authors := ["Frank Herbert"], status := "tbd",
        source := "kindle" } : CreateBookInput).status = "tbd" ∧
    ({ title := "Dune", authors := ["Frank Herbert"], status := "tbd",
        source := "kindle" } : CreateBookInput).source = "kindle" :=
  (claim_C8_kindle_no_dedupe "Dune\nFrank Herbert").2
    { title := "Dune", authors := ["Frank Herbert"], status := "tbd", source := "kindle" }
    (by decide)

/-- **C9 counterexample.**  The Libby importer accepts a CSV row whose
author field is empty and copies it verbatim: the produced candidate's
authors list is `[""]` — an empty author string with no "Unknown"
sentinel, where the claim requires at least one non-empty author for
every parser. -/
theorem claim_C9_unknown_sentinel_counterexample :
    (LibbyImport.importLibbyCSV (fun _ => none)
        "cover,title,author,publisher,isbn,timestamp,activity,details,library\nc,t,,p,i,ts,Borrowed,d,l").map
      (fun b => b.authors) = [[""]] := by
  decide

/-- **C9 (amended).**  The Kobo converter and the Readwise author parser
do guarantee a non-empty authors list of non-empty strings with the
"Unknown" sentinel; the Goodreads and Libby converters instead copy the
primary source author field verbatim (Goodreads filters only the
additional authors), so an empty source author yields `[""]`. -/
theorem claim_C9_unknown_sentinel (k : KoboImport.KoboBook) (b : CreateBookInput)
    (hk : KoboImport.koboToBookInput k = some b) :
    (b.authors ≠ [] ∧ ∀ a ∈ b.authors, a ≠ "") ∧
    (∀ s : String, ReadwiseImport.parseAuthors s ≠ [] ∧
      ∀ a ∈ ReadwiseImport.parseAuthors s, a ≠ "") ∧
    (∀ gr : GoodreadsImport.GoodreadsBook,
      (GoodreadsImport.goodreadsToBookInput gr).authors.head? = some gr.author) ∧
    (∀ cb : LibbyImport.ConsolidatedBook,
      (LibbyImport.libbyToBookInput cb).authors = [cb.loan.author]) := by
  refine ⟨?_, ?_, fun gr => rfl, fun cb => rfl⟩
  · unfold KoboImport.koboToBookInput at hk
    dsimp only at hk
    by_cases h1 : jsStartsWith (jsLower k.status) "buy now" = true ∨ jsLower k.status = "preview"
    · rw [if_pos h1] at hk
      cases hk
    · rw [if_neg h1, Option.some.injEq] at hk
      subst hk
      show (if (List.filter (fun s => decide (s ≠ ""))
          (List.map jsTrim (jsSplit ',' (KoboImport.stripPlusN k.author)))).length > 0 then
            List.filter (fun s => decide (s ≠ ""))
              (List.map jsTrim (jsSplit ',' (KoboImport.stripPlusN k.author)))
          else ["Unknown"]) ≠ [] ∧
        ∀ a ∈ (if (List.filter (fun s => decide (s ≠ ""))
          (List.map jsTrim (jsSplit ',' (KoboImport.stripPlusN k.author)))).length > 0 then
            List.filter (fun s => decide (s ≠ ""))
              (List.map jsTrim (jsSplit ',' (KoboImport.stripPlusN k.author)))
          else ["Unknown"]), a ≠ ""
      split_ifs with h2
      · constructor
        · intro hcontra
          rw [hcontra] at h2
          simp at h2
        · intro a ha
          have hf := List.mem_filter.mp ha
          simpa using hf.2
      · exact ⟨by simp, by simp⟩
  · intro s
    unfold ReadwiseImport.parseAuthors
    dsimp only
    split_ifs with h1 h2
    · exact ⟨by simp, by simp⟩
    · constructor
      · intro hcontra
        rw [hcontra] at h2
        simp at h2
      · intro a ha
        have := List.mem_filter.mp ha
        simpa using this.2
    · exact ⟨by simp, by simp⟩

/-- Witness for C9 (amended): a Kobo entry with an empty author field
produces the "Unknown" sentinel. -/
theorem claim_C9_unknown_sentinel_witness :
    (({ title := "T", authors := ["Unknown"], status := "tbd", source := "kobo" }
        : CreateBookInput).authors ≠ [] ∧
      ∀ a ∈ ({ title := "T", authors := ["Unknown"], status := "tbd", source := "kobo" }
        : CreateBookInput).authors, a ≠ "") :=
  (claim_C9_unknown_sentinel { title := "T", author := "", status := "Unread", dateAdded := "" }
    { title := "T", authors := ["Unknown"], status := "tbd", source := "kobo" }
    (by decide)).1
